import Mathlib

/-!
# Memory-Allocator (`src/osmem.c`): a shallow embedding

The allocator keeps a singly linked list of block headers inside the memory it
manages.  The embedding keeps that representation:

* a header lives at an address and is read and written field by field
  (`State.hdr`), the `next` field is an address, `0` is `NULL`;
* payload bytes live in `State.byte`; headers and payload bytes are two typed
  views of memory: an assignment to a field of the header at `p` changes the
  header at `p` and nothing else, and a fill or a copy of payload bytes changes
  `byte` and nothing else.  Where the code writes a header on top of payload
  bytes, payload bytes on top of a header, or a header less than 24 bytes away
  from another one, the overlay is stated through the addresses involved; and
  what a theorem says about the headers a call leaves alone, it says of headers
  that share no byte (`Apart`) with the headers the call writes;
* `size_t` and pointer arithmetic is arithmetic modulo `2 ^ 64` (LP64), the loop
  counter of the zero-fill loop is a 32 bit `unsigned int`;
* the kernel (`sbrk`, `mmap`, `munmap`) is a deterministic bump model with
  limits past which a request is refused;
* loops over the list take fuel; running out of fuel is `Outcome.hang`, and a
  loop that hangs with every amount of fuel does not end.
-/

namespace OsMem

/-! ## Machine arithmetic -/

/-- Addition of two `size_t` values (also pointer plus offset). -/
def add64 (a b : Nat) : Nat := (a + b) % 18446744073709551616

/-- Subtraction of two `size_t` values, wrapping below zero. -/
def sub64 (a b : Nat) : Nat :=
  (a + (18446744073709551616 - b % 18446744073709551616)) % 18446744073709551616

/-- Multiplication of two `size_t` values. -/
def mul64 (a b : Nat) : Nat := (a * b) % 18446744073709551616

/-! ## Constants and layout (`osmem.c` lines 6-17) -/

def MMAP_THRESHOLD : Nat := 128 * 1024

def ALIGNMENT : Nat := 8

/-- The definition of `ALIGN(size)` (lines 8-14):
`(size + (ALIGNMENT - 1)) & ~(ALIGNMENT - 1)`; clearing the low three bits is written as
divide and multiply. -/
def ALIGN (size : Nat) : Nat := add64 size (ALIGNMENT - 1) / ALIGNMENT * ALIGNMENT

def PAGE_SIZE : Nat := 4096

/-- Modelled from the spec: `helpers.h`, which declares `struct block_meta`, is not among
the sources.  The spec gives the header three fields (`size`, `status`, `next`); with a 64 bit
`size_t`, an `int` and a pointer that is `sizeof(struct block_meta) = 24`. -/
def SIZEOF_BLOCK_META : Nat := 24

def META_SIZE : Nat := ALIGN SIZEOF_BLOCK_META

/-- Modelled from the spec: the `STATUS_FREE`, `STATUS_ALLOC` and `STATUS_MAPPED` values of
the missing `helpers.h`; the spec names the three states FREE, ALLOCATED and MAPPED. -/
inductive Status where
  | FREE
  | ALLOC
  | MAPPED
  deriving DecidableEq

/-- Modelled from the spec: `struct block_meta` of the missing `helpers.h`, with the fields
the spec lists and the source uses. -/
structure block_meta where
  size : Nat
  status : Status
  next : Nat
  deriving DecidableEq

/-! ## State -/

/-- The globals `data_block` and `count`, the memory, and the kernel's bookkeeping. -/
structure State where
  /-- The global `struct block_meta *data_block`. -/
  data_block : Nat
  /-- The global `int count`. -/
  count : Nat
  /-- The header fields stored at an address. -/
  hdr : Nat → block_meta
  /-- The payload bytes. -/
  byte : Nat → Nat
  /-- The program break. -/
  brk : Nat
  /-- The address past which `sbrk` is refused. -/
  brk_limit : Nat
  /-- The address at which the kernel places the next anonymous mapping. -/
  map_next : Nat
  /-- The address past which `mmap` is refused. -/
  map_limit : Nat
  /-- The live anonymous mappings, as (start, length). -/
  maps : List (Nat × Nat)

/-- How a call ends: it returns, it leaves through `DIE`, it dereferences `NULL`, or it
does not come back from a loop. -/
inductive Outcome (α : Type) where
  | ret (v : α) (s : State)
  | die (s : State)
  | fault
  | hang

/-- The returned value of a call that returned. -/
def Outcome.value {α : Type} : Outcome α → Option α
  | .ret v _ => some v
  | _ => none

/-- The state after a call that returned. -/
def Outcome.state {α : Type} : Outcome α → Option State
  | .ret _ s => some s
  | _ => none

/-- The assignment `p->size = v`. -/
def set_size (s : State) (p v : Nat) : State :=
  { s with hdr := fun a => if a = p then { s.hdr p with size := v } else s.hdr a }

/-- The assignment `p->status = v`. -/
def set_status (s : State) (p : Nat) (v : Status) : State :=
  { s with hdr := fun a => if a = p then { s.hdr p with status := v } else s.hdr a }

/-- The assignment `p->next = v`. -/
def set_next (s : State) (p v : Nat) : State :=
  { s with hdr := fun a => if a = p then { s.hdr p with next := v } else s.hdr a }

/-- Setting `n` bytes from `ptr` to zero (the loop of `os_malloc`, and `memset(ptr, 0, n)`).
The fill is recorded in the byte view only: a header whose bytes lie in the range keeps its
fields in `hdr`, and is found through its address. -/
def zero_fill (s : State) (ptr n : Nat) : State :=
  { s with byte := fun x => if ptr ≤ x ∧ x < ptr + n then 0 else s.byte x }

/-- The call `memcpy(dst, src, n)`. -/
def memcpy (s : State) (dst src n : Nat) : State :=
  { s with byte := fun x => if dst ≤ x ∧ x < dst + n then s.byte (src + (x - dst)) else s.byte x }

/-! ## Kernel model -/

/-- The call `sbrk(inc)`: the old break, and the break moved up; `none` when refused. -/
def sbrk (s : State) (inc : Nat) : Option (Nat × State) :=
  if s.brk + inc ≤ s.brk_limit then some (s.brk, { s with brk := s.brk + inc }) else none

/-- The state after the kernel has placed an anonymous mapping of `len` bytes at
`map_next`: the region is zero-filled and recorded, and the next mapping goes past its last
page. -/
def mapped (s : State) (len : Nat) : State :=
  { s with
    map_next := s.map_next + (len + 4095) / 4096 * 4096
    maps := (s.map_next, len) :: s.maps
    byte := fun x => if s.map_next ≤ x ∧ x < s.map_next + len then 0 else s.byte x }

/-- The call `mmap(NULL, len, ...)` of a private anonymous mapping: the address of the
mapping and the state after it; `none` (`MAP_FAILED`) for a zero length or past the limit. -/
def mmap (s : State) (len : Nat) : Option (Nat × State) :=
  if len = 0 ∨ s.map_limit < s.map_next + len then none
  else some (s.map_next, mapped s len)

/-- The call `munmap(addr, len)`: the mappings that start inside the range are gone. -/
def munmap (s : State) (addr len : Nat) : State :=
  { s with maps := s.maps.filter (fun r => ¬ (addr ≤ r.1 ∧ r.1 < addr + len)) }

/-! ## `osmem.c` -/

/-- The function `get_block_ptr` (lines 22-25). -/
def get_block_ptr (ptr : Nat) : Nat := sub64 ptr META_SIZE

/-- The function `os_split_block` (lines 27-42); the caller passes a non-null `block_ptr`.
The three fields of the new header are written at `new_block_ptr`; a header that starts less
than 24 bytes away from it keeps its fields in `hdr`, and is found through its address. -/
def os_split_block (s : State) (block_ptr size : Nat) : State :=
  if sub64 (s.hdr block_ptr).size size ≥ META_SIZE then
    let new_block_ptr := add64 (add64 block_ptr META_SIZE) size
    let s := set_size s new_block_ptr (sub64 (sub64 (s.hdr block_ptr).size size) META_SIZE)
    let s := set_next s new_block_ptr (s.hdr block_ptr).next
    let s := set_status s new_block_ptr Status.FREE
    let s := set_size s block_ptr size
    set_next s block_ptr new_block_ptr
  else s

/-- The function `setup_data_block` (lines 44-72). -/
def setup_data_block (s : State) (size : Nat) : Outcome Nat :=
  let s := { s with count := s.count + 1 }
  let r := if size ≥ MMAP_THRESHOLD then mmap s (ALIGN (add64 size SIZEOF_BLOCK_META))
           else sbrk s MMAP_THRESHOLD
  match r with
  | none => Outcome.die s
  | some (result, s) =>
    let s := { s with data_block := result }
    let s := set_size s s.data_block size
    let s := set_status s s.data_block
      (if size ≥ MMAP_THRESHOLD then Status.MAPPED else Status.ALLOC)
    let s := set_next s s.data_block 0
    Outcome.ret (add64 result META_SIZE) s

/-- The function `coalesce_prev` (lines 74-78). -/
def coalesce_prev (s : State) (block prev : Nat) : State :=
  let s := set_size s prev
    (add64 (s.hdr prev).size (add64 (s.hdr block).size SIZEOF_BLOCK_META))
  set_next s prev (s.hdr block).next

/-- The function `coalesce_next` (lines 80-84). -/
def coalesce_next (s : State) (block next : Nat) : State :=
  let s := set_size s block
    (add64 (s.hdr block).size (add64 (s.hdr next).size SIZEOF_BLOCK_META))
  set_next s block (s.hdr next).next

/-- The first-fit loop of `os_malloc` (lines 97-105): the values of `current` and `prev`
when the loop is left. -/
def find_fit (hdr : Nat → block_meta) (size : Nat) : Nat → Nat → Nat → Option (Nat × Nat)
  | 0, _, _ => none
  | fuel + 1, current, prev =>
    if current = 0 then some (current, prev)
    else if (hdr current).status = Status.FREE ∧ (hdr current).size ≥ size then
      some (current, prev)
    else find_fit hdr size fuel (hdr current).next current

/-- The walk to the tail, `while (last->next) last = last->next;` (lines 162-163 and
282-283); the caller passes a non-null start. -/
def find_last (hdr : Nat → block_meta) : Nat → Nat → Option Nat
  | 0, _ => none
  | fuel + 1, last =>
    if (hdr last).next ≠ 0 then find_last hdr fuel (hdr last).next else some last

/-- The hit path of `os_malloc` up to and including the two merges (lines 109-119): the
state, and `current` afterwards. -/
def malloc_coalesce (s : State) (current prev : Nat) : State × Nat :=
  let s := set_status s current Status.ALLOC
  let (s, current) :=
    if prev ≠ 0 ∧ (s.hdr prev).status = Status.FREE then (coalesce_prev s current prev, prev)
    else (s, current)
  if (s.hdr current).next ≠ 0 ∧ (s.hdr (s.hdr current).next).status = Status.FREE then
    (coalesce_next s current (s.hdr current).next, current)
  else (s, current)

/-- The split at the end of the hit path of `os_malloc` (lines 125-139). -/
def malloc_split (s : State) (current size : Nat) : State :=
  if (s.hdr current).size ≥ add64 (add64 size SIZEOF_BLOCK_META) ALIGNMENT then
    let split_block := add64 current (ALIGN (add64 size SIZEOF_BLOCK_META))
    let v : block_meta :=
      { size := sub64 (sub64 (s.hdr current).size size) SIZEOF_BLOCK_META
        status := Status.FREE
        next := (s.hdr current).next }
    let s := { s with hdr := fun a => if a = split_block then v else s.hdr a }
    let s := set_next s current split_block
    set_size s current size
  else s

/-- The hit path of `os_malloc` (lines 108-142).  The loop counter `i` is an
`unsigned int`: for `size ≥ 2 ^ 32` the test `i < size` never fails. -/
def malloc_hit (s : State) (current prev size : Nat) : Outcome Nat :=
  let ptr := add64 current META_SIZE
  let (s, current) := malloc_coalesce s current prev
  if size ≥ 4294967296 then Outcome.hang
  else
    let s := zero_fill s ptr size
    let s := malloc_split s current size
    Outcome.ret ptr s

/-- The miss path of `os_malloc` (lines 144-166). -/
def malloc_miss (fuel : Nat) (s : State) (size : Nat) : Outcome Nat :=
  let r := if size ≥ MMAP_THRESHOLD then mmap s (ALIGN (add64 size SIZEOF_BLOCK_META))
           else sbrk s (ALIGN (add64 size SIZEOF_BLOCK_META))
  match r with
  | none => Outcome.die s
  | some (res, s) =>
    let current := res
    let s := set_size s current size
    let s := set_status s current
      (if size ≥ MMAP_THRESHOLD then Status.MAPPED else Status.ALLOC)
    let s := set_next s current 0
    if s.data_block = 0 then Outcome.fault
    else
      match find_last s.hdr fuel s.data_block with
      | none => Outcome.hang
      | some last => Outcome.ret (add64 current META_SIZE) (set_next s last current)

/-- The function `os_malloc` (lines 86-167). -/
def os_malloc (fuel : Nat) (s : State) (size : Nat) : Outcome Nat :=
  if size = 0 then Outcome.ret 0 s
  else if s.count = 0 then setup_data_block s size
  else
    match find_fit s.hdr size fuel s.data_block 0 with
    | none => Outcome.hang
    | some (current, prev) =>
      if current ≠ 0 then malloc_hit s current prev size
      else malloc_miss fuel s size

/-- The test of line 176-177 in `os_free`: is the block of `ptr` the head, with status
MAPPED?  `none` stands for reading `data_block->status` through a null `data_block`. -/
def head_is_mapped (s : State) (target : Nat) : Option Bool :=
  if s.data_block = target then
    if s.data_block = 0 then none
    else some (decide ((s.hdr s.data_block).status = Status.MAPPED))
  else some false

/-- The first loop of `os_free` (lines 179-188): the block at `target` with status ALLOC,
when the walk meets one. -/
def free_find_alloc (hdr : Nat → block_meta) (target : Nat) : Nat → Nat → Option (Option Nat)
  | 0, _ => none
  | fuel + 1, current_block =>
    if current_block = 0 then some none
    else if ¬ (current_block = target ∧ (hdr current_block).status = Status.ALLOC) then
      free_find_alloc hdr target fuel (hdr current_block).next
    else some (some current_block)

/-- What the second loop of `os_free` ends with. -/
inductive MappedSearch where
  | found (current_block : Nat)
  | absent
  | null_deref
  | out_of_fuel
  deriving DecidableEq

/-- The second loop of `os_free` (lines 191-209): the block whose `next` is `target` with
status MAPPED.  When `target` is null, `current_block->next->status` is read through the
null `next` of the tail. -/
def free_find_mapped (hdr : Nat → block_meta) (target : Nat) : Nat → Nat → MappedSearch
  | 0, _ => MappedSearch.out_of_fuel
  | fuel + 1, current_block =>
    if current_block = 0 then MappedSearch.absent
    else if (hdr current_block).next = target then
      if (hdr current_block).next = 0 then MappedSearch.null_deref
      else if (hdr (hdr current_block).next).status = Status.MAPPED then
        MappedSearch.found current_block
      else free_find_mapped hdr target fuel (hdr current_block).next
    else free_find_mapped hdr target fuel (hdr current_block).next

/-- A `size_t` stored in an `int` and handed back as a `size_t`: the low 32 bits,
sign-extended. -/
def int_of_size (v : Nat) : Nat :=
  if v % 4294967296 < 2147483648 then v % 4294967296
  else v % 4294967296 + (18446744073709551616 - 4294967296)

/-- The function `os_free` (lines 169-220).  The local `int META_SIZE` of line 196 is the
length handed to `munmap`, here `len`. -/
def os_free (fuel : Nat) (s : State) (ptr : Nat) : Outcome Unit :=
  if ptr = 0 then Outcome.ret () s
  else
    match head_is_mapped s (sub64 ptr META_SIZE) with
    | none => Outcome.fault
    | some true =>
      let s := munmap s (sub64 ptr (ALIGN SIZEOF_BLOCK_META))
        (ALIGN (add64 (s.hdr s.data_block).size SIZEOF_BLOCK_META))
      Outcome.ret () { s with data_block := 0 }
    | some false =>
      match free_find_alloc s.hdr (sub64 ptr META_SIZE) fuel s.data_block with
      | none => Outcome.hang
      | some (some current_block) => Outcome.ret () (set_status s current_block Status.FREE)
      | some none =>
        match free_find_mapped s.hdr (sub64 ptr META_SIZE) fuel s.data_block with
        | MappedSearch.out_of_fuel => Outcome.hang
        | MappedSearch.null_deref => Outcome.fault
        | MappedSearch.absent => Outcome.die s
        | MappedSearch.found current_block =>
          let block_to_unmap := (s.hdr current_block).next
          let len := int_of_size (ALIGN (add64 (s.hdr block_to_unmap).size SIZEOF_BLOCK_META))
          let s := set_next s current_block (s.hdr (s.hdr current_block).next).next
          Outcome.ret () (munmap s (sub64 ptr (ALIGN SIZEOF_BLOCK_META)) len)

/-- The function `os_calloc` (lines 222-302). -/
def os_calloc (fuel : Nat) (s : State) (nmemb size : Nat) : Outcome Nat :=
  if nmemb = 0 ∨ size = 0 then Outcome.ret 0 s
  else
    let total_size := mul64 nmemb size
    if s.data_block = 0 then
      if add64 total_size SIZEOF_BLOCK_META ≥ PAGE_SIZE then
        match mmap s (ALIGN (add64 total_size META_SIZE)) with
        | none => Outcome.die s
        | some (result, s) =>
          let block := result
          let s := set_status s block Status.MAPPED
          let s := set_size s block total_size
          let s := set_next s block 0
          Outcome.ret (add64 block SIZEOF_BLOCK_META) s
      else
        match sbrk s MMAP_THRESHOLD with
        | none => Outcome.die s
        | some (result, s) =>
          let block := result
          let s := set_status s block Status.ALLOC
          let s := set_size s block total_size
          let s := set_next s block 0
          let s := { s with data_block := block }
          Outcome.ret (add64 result META_SIZE) s
    else if add64 total_size SIZEOF_BLOCK_META ≥ PAGE_SIZE then
      match mmap s (ALIGN (add64 total_size META_SIZE)) with
      | none => Outcome.die s
      | some (result, s) =>
        let block := result
        let s := set_status s block Status.MAPPED
        let s := set_size s block total_size
        let s := set_next s block 0
        match find_last s.hdr fuel s.data_block with
        | none => Outcome.hang
        | some aux => Outcome.ret (add64 result META_SIZE) (set_next s aux block)
    else
      match os_malloc fuel s total_size with
      | Outcome.ret ptr s =>
        if ptr ≠ 0 then Outcome.ret ptr (zero_fill s ptr total_size) else Outcome.ret ptr s
      | Outcome.die s => Outcome.die s
      | Outcome.fault => Outcome.fault
      | Outcome.hang => Outcome.hang

/-- The function `os_realloc` (lines 304-365). -/
def os_realloc (fuel : Nat) (s : State) (ptr size : Nat) : Outcome Nat :=
  if ptr = 0 then os_malloc fuel s size
  else if size = 0 then
    match os_free fuel s ptr with
    | Outcome.ret _ s => Outcome.ret 0 s
    | Outcome.die s => Outcome.die s
    | Outcome.fault => Outcome.fault
    | Outcome.hang => Outcome.hang
  else
    let block_ptr := get_block_ptr ptr
    if block_ptr = 0 then Outcome.fault
    else
      let old_size := (s.hdr block_ptr).size
      if size ≤ old_size then
        let s := if sub64 old_size size ≥ META_SIZE then os_split_block s block_ptr size else s
        Outcome.ret ptr (set_size s block_ptr size)
      else
        let next_block := (s.hdr block_ptr).next
        let next_block_size :=
          if next_block ≠ 0 ∧ (s.hdr next_block).status = Status.FREE then
            add64 (s.hdr next_block).size META_SIZE
          else 0
        if add64 (s.hdr block_ptr).size next_block_size ≥ size then
          if next_block = 0 then Outcome.fault
          else
            let s := os_split_block s next_block (sub64 size (s.hdr block_ptr).size)
            Outcome.ret ptr (set_size s block_ptr size)
        else
          match os_malloc fuel s size with
          | Outcome.ret new_ptr s =>
            if new_ptr = 0 then Outcome.ret 0 s
            else
              let s := memcpy s new_ptr ptr old_size
              match os_free fuel s ptr with
              | Outcome.ret _ s => Outcome.ret new_ptr s
              | Outcome.die s => Outcome.die s
              | Outcome.fault => Outcome.fault
              | Outcome.hang => Outcome.hang
          | Outcome.die s => Outcome.die s
          | Outcome.fault => Outcome.fault
          | Outcome.hang => Outcome.hang

/-! ## Reading the registry, and running calls -/

/-- The list from `p` on, read through the `next` fields: address, size and status of each
block, for at most `fuel` blocks. -/
def registry_from (hdr : Nat → block_meta) : Nat → Nat → List (Nat × Nat × Status)
  | 0, _ => []
  | fuel + 1, p =>
    if p = 0 then []
    else (p, (hdr p).size, (hdr p).status) :: registry_from hdr fuel (hdr p).next

/-- The registry of a state: the list that starts at `data_block`. -/
def registry (fuel : Nat) (s : State) : List (Nat × Nat × Status) :=
  registry_from s.hdr fuel s.data_block

/-- A call of one of the four entry points. -/
inductive Call where
  | malloc (size : Nat)
  | free (ptr : Nat)
  | calloc (nmemb size : Nat)
  | realloc (ptr size : Nat)

/-- One call; `os_free` returns nothing, which is shown as `0`. -/
def exec (fuel : Nat) (s : State) : Call → Outcome Nat
  | Call.malloc size => os_malloc fuel s size
  | Call.free ptr =>
    match os_free fuel s ptr with
    | Outcome.ret _ s => Outcome.ret 0 s
    | Outcome.die s => Outcome.die s
    | Outcome.fault => Outcome.fault
    | Outcome.hang => Outcome.hang
  | Call.calloc nmemb size => os_calloc fuel s nmemb size
  | Call.realloc ptr size => os_realloc fuel s ptr size

/-- A sequence of calls, each of which has to return: the state at the end. -/
def run (fuel : Nat) (s : State) : List Call → Option State
  | [] => some s
  | c :: cs =>
    match exec fuel s c with
    | Outcome.ret _ s => run fuel s cs
    | _ => none

/-- A process before its first request: no registry, `count = 0`, the break at `4096`,
mappings placed from `2 ^ 32` on. -/
def init : State :=
  { data_block := 0
    count := 0
    hdr := fun _ => { size := 0, status := Status.FREE, next := 0 }
    byte := fun _ => 0
    brk := 4096
    brk_limit := 1073741824
    map_next := 4294967296
    map_limit := 140737488355328
    maps := [] }

/-! ## The registry as a list -/

/-- The blocks `l` are the registry read from `p`: `p` is the first of them, each `next`
is the block after it, and the `next` of the last one is `NULL`. -/
def IsChain (hdr : Nat → block_meta) : Nat → List Nat → Prop
  | p, [] => p = 0
  | p, a :: l => p = a ∧ a ≠ 0 ∧ IsChain hdr (hdr a).next l

/-- Whether `l` is the registry read from `p` can be computed. -/
instance decIsChain (hdr : Nat → block_meta) :
    (l : List Nat) → (p : Nat) → Decidable (IsChain hdr p l)
  | [], p => inferInstanceAs (Decidable (p = 0))
  | a :: l, p =>
    have : Decidable (IsChain hdr (hdr a).next l) := decIsChain hdr l (hdr a).next
    inferInstanceAs (Decidable (p = a ∧ a ≠ 0 ∧ IsChain hdr (hdr a).next l))

/-- The last element of `l`, and `d` for the empty list: the value of `prev` after a walk
over `l` that started with `prev = d`. -/
def lastOr : List Nat → Nat → Nat
  | [], d => d
  | a :: l, _ => lastOr l a

/-- The test of the first-fit loop: the block at `a` is FREE and holds `size` bytes. -/
def Fits (hdr : Nat → block_meta) (size a : Nat) : Prop :=
  (hdr a).status = Status.FREE ∧ (hdr a).size ≥ size

instance decFits (hdr : Nat → block_meta) (size a : Nat) : Decidable (Fits hdr size a) :=
  inferInstanceAs (Decidable ((hdr a).status = Status.FREE ∧ (hdr a).size ≥ size))

/-- A call that left through `DIE` or through a null dereference. -/
def Outcome.aborted {α : Type} : Outcome α → Bool
  | .die _ => true
  | .fault => true
  | _ => false

/-- The part of the state that is not header or payload memory: the two globals and the
kernel's bookkeeping. -/
def State.frame (s : State) : Nat × Nat × Nat × Nat × Nat × Nat × List (Nat × Nat) :=
  (s.data_block, s.count, s.brk, s.brk_limit, s.map_next, s.map_limit, s.maps)

/-! ## States used as concrete inputs -/

/-- One block of 100 bytes at `4096`, ALLOCATED: the state after `os_malloc(100)` on
`init`. -/
def st_one : State :=
  { init with
    data_block := 4096
    count := 1
    brk := 135168
    hdr := fun a => if a = 4096 then ⟨100, Status.ALLOC, 0⟩ else init.hdr a }

/-- Three consecutive blocks `A` at `4096` (16 bytes, FREE), `B` at `4136` (56 bytes,
ALLOCATED) and `C` at `4216` (104 bytes, FREE), in a process that has served requests. -/
def st_abc : State :=
  { init with
    data_block := 4096
    count := 1
    brk := 135168
    hdr := fun a =>
      if a = 4096 then ⟨16, Status.FREE, 4136⟩
      else if a = 4136 then ⟨56, Status.ALLOC, 4216⟩
      else if a = 4216 then ⟨104, Status.FREE, 0⟩
      else init.hdr a }

/-- The address at which the miss path of `os_malloc` places the header of a new block of
`size` bytes: the start of the next mapping, or the break. -/
def miss_address (s : State) (size : Nat) : Nat :=
  if size ≥ MMAP_THRESHOLD then s.map_next else s.brk

/-- The kernel grants the request of the miss path of `os_malloc` for `size` bytes. -/
def miss_granted (s : State) (size : Nat) : Prop :=
  if size ≥ MMAP_THRESHOLD then s.map_next + ALIGN (size + SIZEOF_BLOCK_META) ≤ s.map_limit
  else s.brk + ALIGN (size + SIZEOF_BLOCK_META) ≤ s.brk_limit

instance decMissGranted (s : State) (size : Nat) : Decidable (miss_granted s size) :=
  inferInstanceAs (Decidable (if size ≥ MMAP_THRESHOLD then
    s.map_next + ALIGN (size + SIZEOF_BLOCK_META) ≤ s.map_limit
    else s.brk + ALIGN (size + SIZEOF_BLOCK_META) ≤ s.brk_limit))

/-- The status the miss path records: MAPPED from the threshold on, ALLOC below it. -/
def miss_status (size : Nat) : Status :=
  if size ≥ MMAP_THRESHOLD then Status.MAPPED else Status.ALLOC

/-- The 24 bytes of a header at `a` and the 24 bytes of a header at `b` share no byte. -/
def Apart (a b : Nat) : Prop := a + SIZEOF_BLOCK_META ≤ b ∨ b + SIZEOF_BLOCK_META ≤ a

instance decApart (a b : Nat) : Decidable (Apart a b) :=
  inferInstanceAs (Decidable (a + SIZEOF_BLOCK_META ≤ b ∨ b + SIZEOF_BLOCK_META ≤ a))

/-- The state after six calls that end with `os_realloc` growing the block at `135168`
into its FREE successor by more than that successor holds: the header at `135336` is FREE
and its own `next`. -/
def st_self_linked : State :=
  (run 20 init [Call.malloc 8, Call.malloc 16, Call.malloc 100, Call.malloc 8,
    Call.free 135232, Call.realloc 135192 120]).getD init

/-- The state after two more calls, `os_malloc 200` and `os_malloc 100`: every block is
ALLOCATED, and the header at `135336` is still its own `next`. -/
def st_cyclic : State :=
  (run 20 init [Call.malloc 8, Call.malloc 16, Call.malloc 100, Call.malloc 8,
    Call.free 135232, Call.realloc 135192 120, Call.malloc 200, Call.malloc 100]).getD init

/-! ## Theorems -/

theorem META_SIZE_eq : META_SIZE = 24 := by decide

theorem Apart.ne {a b : Nat} (h : Apart a b) : a ≠ b := by
  intro e
  simp only [Apart, SIZEOF_BLOCK_META] at h
  omega

/-- An address whose header shares no byte with the headers of `l` is not in `l`. -/
theorem fresh_of_apart {n : Nat} {l : List Nat} (h : (n :: l).Pairwise Apart) : n ∉ l :=
  fun hm => Apart.ne ((List.pairwise_cons.mp h).1 n hm) rfl

theorem block_meta_ext {x y : block_meta} (h1 : x.size = y.size) (h2 : x.status = y.status)
    (h3 : x.next = y.next) : x = y := by
  cases x; cases y; simp_all

@[simp] theorem set_size_size (s : State) (p v a : Nat) :
    ((set_size s p v).hdr a).size = if a = p then v else (s.hdr a).size := by
  simp only [set_size]; split <;> simp_all

@[simp] theorem set_size_status (s : State) (p v a : Nat) :
    ((set_size s p v).hdr a).status = (s.hdr a).status := by
  simp only [set_size]; split <;> simp_all

@[simp] theorem set_size_next (s : State) (p v a : Nat) :
    ((set_size s p v).hdr a).next = (s.hdr a).next := by
  simp only [set_size]; split <;> simp_all

@[simp] theorem set_status_size (s : State) (p : Nat) (v : Status) (a : Nat) :
    ((set_status s p v).hdr a).size = (s.hdr a).size := by
  simp only [set_status]; split <;> simp_all

@[simp] theorem set_status_status (s : State) (p : Nat) (v : Status) (a : Nat) :
    ((set_status s p v).hdr a).status = if a = p then v else (s.hdr a).status := by
  simp only [set_status]; split <;> simp_all

@[simp] theorem set_status_next (s : State) (p : Nat) (v : Status) (a : Nat) :
    ((set_status s p v).hdr a).next = (s.hdr a).next := by
  simp only [set_status]; split <;> simp_all

@[simp] theorem set_next_size (s : State) (p v a : Nat) :
    ((set_next s p v).hdr a).size = (s.hdr a).size := by
  simp only [set_next]; split <;> simp_all

@[simp] theorem set_next_status (s : State) (p v a : Nat) :
    ((set_next s p v).hdr a).status = (s.hdr a).status := by
  simp only [set_next]; split <;> simp_all

@[simp] theorem set_next_next (s : State) (p v a : Nat) :
    ((set_next s p v).hdr a).next = if a = p then v else (s.hdr a).next := by
  simp only [set_next]; split <;> simp_all

/-! ### The registry list -/

theorem IsChain.congr {h1 h2 : Nat → block_meta} :
    ∀ {l : List Nat} {p : Nat}, (∀ a ∈ l, (h1 a).next = (h2 a).next) →
      IsChain h1 p l → IsChain h2 p l
  | [], _, _, c => c
  | a :: l, p, h, c => by
    obtain ⟨c1, c2, c3⟩ := c
    refine ⟨c1, c2, ?_⟩
    rw [← h a (List.mem_cons_self a l)]
    exact IsChain.congr (fun x hx => h x (List.mem_cons_of_mem a hx)) c3

theorem IsChain.ne_zero {hdr : Nat → block_meta} :
    ∀ {l : List Nat} {p : Nat}, IsChain hdr p l → ∀ a ∈ l, a ≠ 0
  | [], _, _, a, ha => by simp at ha
  | b :: l, p, c, a, ha => by
    obtain ⟨_, c2, c3⟩ := c
    rcases List.mem_cons.mp ha with h | h
    · rw [h]; exact c2
    · exact IsChain.ne_zero c3 a h

theorem IsChain.unique {hdr : Nat → block_meta} :
    ∀ {l1 l2 : List Nat} {p : Nat}, IsChain hdr p l1 → IsChain hdr p l2 → l1 = l2
  | [], [], _, _, _ => rfl
  | [], b :: l2, p, c1, c2 => by
    obtain ⟨d1, d2, _⟩ := c2
    have : p = 0 := c1
    omega
  | a :: l1, [], p, c1, c2 => by
    obtain ⟨d1, d2, _⟩ := c1
    have : p = 0 := c2
    omega
  | a :: l1, b :: l2, p, c1, c2 => by
    obtain ⟨d1, _, d3⟩ := c1
    obtain ⟨e1, _, e3⟩ := c2
    have hab : a = b := by omega
    subst hab
    rw [IsChain.unique d3 e3]

theorem IsChain.head_eq {hdr : Nat → block_meta} {p a : Nat} {l : List Nat}
    (c : IsChain hdr p (a :: l)) : p = a := c.1

theorem IsChain.drop {hdr : Nat → block_meta} :
    ∀ {l1 l2 : List Nat} {p a : Nat}, IsChain hdr p (l1 ++ a :: l2) → IsChain hdr a (a :: l2)
  | [], l2, p, a, c => by
    obtain ⟨_, c2, c3⟩ := c
    exact ⟨rfl, c2, c3⟩
  | b :: l1, l2, p, a, c => by
    obtain ⟨_, _, c3⟩ := c
    exact IsChain.drop c3

theorem IsChain.nodup {hdr : Nat → block_meta} :
    ∀ {l : List Nat} {p : Nat}, IsChain hdr p l → l.Nodup
  | [], _, _ => List.nodup_nil
  | a :: l, p, c => by
    have c3 := c.2.2
    refine List.nodup_cons.mpr ⟨?_, IsChain.nodup c3⟩
    intro ha
    obtain ⟨l1, l2, hl⟩ := List.append_of_mem ha
    have c' : IsChain hdr a (a :: l) := ⟨rfl, c.2.1, c3⟩
    have d : IsChain hdr a (a :: l2) := by
      rw [hl] at c3
      exact IsChain.drop c3
    have := IsChain.unique c' d
    have hlen := congrArg List.length this
    rw [hl] at hlen
    simp at hlen
    omega

theorem lastOr_append_singleton (l : List Nat) (a d : Nat) : lastOr (l ++ [a]) d = a := by
  induction l generalizing d with
  | nil => rfl
  | cons b l ih => exact ih b

theorem lastOr_mem : ∀ (l : List Nat) (d : Nat), l ≠ [] → lastOr l d ∈ l
  | [], _, h => absurd rfl h
  | [a], _, _ => by simp [lastOr]
  | a :: b :: l, _, _ => by
    have := lastOr_mem (b :: l) a (by simp)
    exact List.mem_cons_of_mem a this

/-- The scan over blocks that do not fit. -/
theorem find_fit_skip (hdr : Nat → block_meta) (size : Nat) :
    ∀ (l1 l2 : List Nat) (p prev fuel : Nat), IsChain hdr p (l1 ++ l2) →
      (∀ a ∈ l1, ¬ Fits hdr size a) →
      find_fit hdr size (fuel + l1.length) p prev =
        find_fit hdr size fuel (l2.headD 0) (lastOr l1 prev)
  | [], l2, p, prev, fuel, c, _ => by
    cases l2 with
    | nil => have : p = 0 := c; simp [this, lastOr]
    | cons b l2 => have : p = b := c.1; simp [this, lastOr]
  | a :: l1, l2, p, prev, fuel, c, h => by
    obtain ⟨c1, c2, c3⟩ := c
    have hf : ¬ ((hdr a).status = Status.FREE ∧ (hdr a).size ≥ size) :=
      h a (List.mem_cons_self a l1)
    have ih := find_fit_skip hdr size l1 l2 (hdr a).next a fuel c3
      (fun x hx => h x (List.mem_cons_of_mem a hx))
    subst c1
    have e : fuel + (p :: l1).length = (fuel + l1.length) + 1 := by simp; omega
    rw [e]
    simp only [find_fit, c2, hf, if_false]
    exact ih

theorem find_fit_hit (hdr : Nat → block_meta) (size : Nat) (l1 l2 : List Nat)
    (p b prev fuel : Nat) (c : IsChain hdr p (l1 ++ b :: l2))
    (h : ∀ a ∈ l1, ¬ Fits hdr size a) (hb : Fits hdr size b) (hf : l1.length < fuel) :
    find_fit hdr size fuel p prev = some (b, lastOr l1 prev) := by
  obtain ⟨k, rfl⟩ : ∃ k, fuel = (k + 1) + l1.length := ⟨fuel - l1.length - 1, by omega⟩
  rw [find_fit_skip hdr size l1 (b :: l2) p prev (k + 1) c h]
  have hb0 : b ≠ 0 := IsChain.ne_zero c b (by simp)
  have hb' : (hdr b).status = Status.FREE ∧ (hdr b).size ≥ size := hb
  simp [find_fit, hb0, hb']

theorem find_fit_miss (hdr : Nat → block_meta) (size : Nat) (l : List Nat)
    (p prev fuel : Nat) (c : IsChain hdr p l)
    (h : ∀ a ∈ l, ¬ Fits hdr size a) (hf : l.length < fuel) :
    find_fit hdr size fuel p prev = some (0, lastOr l prev) := by
  obtain ⟨k, rfl⟩ : ∃ k, fuel = (k + 1) + l.length := ⟨fuel - l.length - 1, by omega⟩
  have c' : IsChain hdr p (l ++ []) := by simpa using c
  rw [find_fit_skip hdr size l [] p prev (k + 1) c' h]
  simp [find_fit]

theorem find_last_chain (hdr : Nat → block_meta) :
    ∀ (l : List Nat) (a fuel : Nat), IsChain hdr a (a :: l) → l.length < fuel →
      find_last hdr fuel a = some (lastOr l a)
  | [], a, fuel, c, hf => by
    obtain ⟨k, rfl⟩ : ∃ k, fuel = k + 1 := ⟨fuel - 1, by simp at hf; omega⟩
    have : (hdr a).next = 0 := c.2.2
    simp [find_last, this, lastOr]
  | b :: l, a, fuel, c, hf => by
    obtain ⟨k, rfl⟩ : ∃ k, fuel = k + 1 := ⟨fuel - 1, by omega⟩
    have c3 := c.2.2
    have hn : (hdr a).next = b := c3.1
    have hb : b ≠ 0 := c3.2.1
    have c4 : IsChain hdr b (b :: l) := ⟨rfl, hb, c3.2.2⟩
    have ih := find_last_chain hdr l b k c4 (by simp at hf; omega)
    simp only [find_last, hn, hb, ne_eq, not_false_eq_true, if_true, lastOr]
    exact ih


theorem free_find_alloc_chain (hdr : Nat → block_meta) (t : Nat) :
    ∀ (l : List Nat) (p fuel : Nat), IsChain hdr p l → l.length < fuel →
      free_find_alloc hdr t fuel p =
        some (if t ∈ l ∧ (hdr t).status = Status.ALLOC then some t else none)
  | [], p, fuel, c, hf => by
    obtain ⟨k, rfl⟩ : ∃ k, fuel = k + 1 := ⟨fuel - 1, by simp at hf; omega⟩
    have : p = 0 := c
    simp [free_find_alloc, this]
  | a :: l, p, fuel, c, hf => by
    obtain ⟨k, rfl⟩ : ∃ k, fuel = k + 1 := ⟨fuel - 1, by omega⟩
    obtain ⟨c1, c2, c3⟩ := c
    subst c1
    have ih := free_find_alloc_chain hdr t l (hdr p).next k c3 (by simp only [List.length_cons] at hf ⊢; omega)
    by_cases h : p = t ∧ (hdr p).status = Status.ALLOC
    · obtain ⟨h1, h2⟩ := h
      subst h1
      simp [free_find_alloc, c2, h2]
    · simp only [free_find_alloc, c2, h, if_false, not_false_eq_true, if_true]
      rw [ih]
      by_cases ht : t = p
      · subst ht
        have h2 : (hdr t).status ≠ Status.ALLOC := fun e => h ⟨rfl, e⟩
        simp [h2]
      · simp [ht]

theorem free_find_mapped_chain (hdr : Nat → block_meta) (t : Nat) (ht : t ≠ 0) :
    ∀ (l : List Nat) (p fuel : Nat), IsChain hdr p l → l.length < fuel →
      if t ∈ l.tail ∧ (hdr t).status = Status.MAPPED then
        ∃ c, c ∈ l ∧ (hdr c).next = t ∧ free_find_mapped hdr t fuel p = MappedSearch.found c
      else free_find_mapped hdr t fuel p = MappedSearch.absent
  | [], p, fuel, c, hf => by
    obtain ⟨k, rfl⟩ : ∃ k, fuel = k + 1 := ⟨fuel - 1, by simp at hf; omega⟩
    have : p = 0 := c
    simp [free_find_mapped, this]
  | [a], p, fuel, c, hf => by
    obtain ⟨k, rfl⟩ : ∃ k, fuel = k + 1 := ⟨fuel - 1, by omega⟩
    obtain ⟨k', rfl⟩ : ∃ k', k = k' + 1 := ⟨k - 1, by simp at hf; omega⟩
    obtain ⟨c1, c2, c3⟩ := c
    subst c1
    have c3' : (hdr p).next = 0 := c3
    have : ¬ (0 = t) := fun e => ht e.symm
    simp [free_find_mapped, c2, c3', this]
  | a :: b :: l, p, fuel, c, hf => by
    obtain ⟨k, rfl⟩ : ∃ k, fuel = k + 1 := ⟨fuel - 1, by omega⟩
    obtain ⟨c1, c2, c3⟩ := c
    subst c1
    have hn : (hdr p).next = b := c3.1
    have hb : b ≠ 0 := c3.2.1
    have ih := free_find_mapped_chain hdr t ht (b :: l) (hdr p).next k c3 (by simp only [List.length_cons] at hf ⊢; omega)
    by_cases hbt : b = t
    · subst hbt
      by_cases hm : (hdr b).status = Status.MAPPED
      · simp only [List.tail_cons, List.mem_cons, true_or, hm, and_self, if_true]
        exact ⟨p, by simp, hn, by simp [free_find_mapped, c2, hn, hb, hm]⟩
      · simp only [hm, and_false, if_false] at ih ⊢
        simp only [free_find_mapped, c2, hn, hb, hm, if_true, if_false]
        rw [hn] at ih; exact ih
    · have hiff : (t ∈ (p :: b :: l).tail ∧ (hdr t).status = Status.MAPPED) ↔
          (t ∈ (b :: l).tail ∧ (hdr t).status = Status.MAPPED) := by
        simp [Ne.symm hbt]
      have hstep : free_find_mapped hdr t (k + 1) p = free_find_mapped hdr t k (hdr p).next := by
        simp [free_find_mapped, c2, hn, hbt]
      rw [hstep]
      by_cases h : t ∈ (b :: l).tail ∧ (hdr t).status = Status.MAPPED
      · rw [if_pos h] at ih
        rw [if_pos (hiff.mpr h)]
        obtain ⟨c, hc1, hc2, hc3⟩ := ih
        exact ⟨c, List.mem_cons_of_mem p hc1, hc2, hc3⟩
      · rw [if_neg h] at ih
        rw [if_neg (fun h' => h (hiff.mp h'))]
        exact ih

theorem free_find_mapped_null (hdr : Nat → block_meta) :
    ∀ (l : List Nat) (p fuel : Nat), IsChain hdr p l → l.length < fuel →
      free_find_mapped hdr 0 fuel p =
        if l = [] then MappedSearch.absent else MappedSearch.null_deref
  | [], p, fuel, c, hf => by
    obtain ⟨k, rfl⟩ : ∃ k, fuel = k + 1 := ⟨fuel - 1, by simp at hf; omega⟩
    have : p = 0 := c
    simp [free_find_mapped, this]
  | [a], p, fuel, c, hf => by
    obtain ⟨k, rfl⟩ : ∃ k, fuel = k + 1 := ⟨fuel - 1, by omega⟩
    obtain ⟨c1, c2, c3⟩ := c
    subst c1
    have c3' : (hdr p).next = 0 := c3
    simp [free_find_mapped, c2, c3']
  | a :: b :: l, p, fuel, c, hf => by
    obtain ⟨k, rfl⟩ : ∃ k, fuel = k + 1 := ⟨fuel - 1, by omega⟩
    obtain ⟨c1, c2, c3⟩ := c
    subst c1
    have hn : (hdr p).next = b := c3.1
    have hb : b ≠ 0 := c3.2.1
    have ih := free_find_mapped_null hdr (b :: l) (hdr p).next k c3 (by simp only [List.length_cons] at hf ⊢; omega)
    simp only [free_find_mapped, c2, hn, hb, if_false]
    rw [← hn, ih]
    simp

theorem IsChain.head_mem {hdr : Nat → block_meta} {p : Nat} {l : List Nat}
    (c : IsChain hdr p l) (hp : p ≠ 0) : p ∈ l := by
  cases l with
  | nil => exact absurd c hp
  | cons a l => rw [c.1]; exact List.mem_cons_self a l

theorem IsChain.mem_tail_or_head {hdr : Nat → block_meta} {p t : Nat} {l : List Nat}
    (c : IsChain hdr p l) (ht : t ∈ l) : t = p ∨ t ∈ l.tail := by
  cases l with
  | nil => simp at ht
  | cons a l =>
    rcases List.mem_cons.mp ht with h | h
    · left; rw [h, c.1]
    · right; exact h

/-- What `os_free` does with a non-null pointer whose header address is `t`. -/
theorem os_free_cases (fuel : Nat) (s : State) (l : List Nat) (p : Nat)
    (c : IsChain s.hdr s.data_block l) (hf : l.length < fuel) (hp : p ≠ 0) :
    ((sub64 p META_SIZE ∈ l ∧
        ((s.hdr (sub64 p META_SIZE)).status = Status.ALLOC ∨
          (s.hdr (sub64 p META_SIZE)).status = Status.MAPPED)) →
      ∃ s', os_free fuel s p = Outcome.ret () s') ∧
    (¬ (sub64 p META_SIZE ∈ l ∧
        ((s.hdr (sub64 p META_SIZE)).status = Status.ALLOC ∨
          (s.hdr (sub64 p META_SIZE)).status = Status.MAPPED)) →
      os_free fuel s p = if sub64 p META_SIZE = 0 then Outcome.fault else Outcome.die s) := by
  unfold os_free
  simp only [hp, if_false]
  generalize sub64 p META_SIZE = t
  have hA := free_find_alloc_chain s.hdr t l s.data_block fuel c hf
  by_cases hd : s.data_block = t
  · by_cases h0 : t = 0
    · -- `data_block->status` is read through a null `data_block`
      have hnm : t ∉ l := fun h => IsChain.ne_zero c t h h0
      have e : head_is_mapped s t = none := by simp [head_is_mapped, hd, h0]
      simp only [e]
      subst h0
      simp [hnm]
    · have hmem : t ∈ l := by
        have := IsChain.head_mem c (by rw [hd]; exact h0)
        rwa [hd] at this
      by_cases hm : (s.hdr t).status = Status.MAPPED
      · have e : head_is_mapped s t = some true := by simp [head_is_mapped, hd, h0, hm]
        simp only [e]
        simp [hmem, hm]
      · have e : head_is_mapped s t = some false := by simp [head_is_mapped, hd, h0, hm]
        simp only [e, hA, hmem, hm, true_and, or_false]
        by_cases ha : (s.hdr t).status = Status.ALLOC
        · simp [ha]
        · have hB := free_find_mapped_chain s.hdr t h0 l s.data_block fuel c hf
          simp only [hm, and_false, if_false] at hB
          simp [ha, hB, h0]
  · have e : head_is_mapped s t = some false := by simp [head_is_mapped, hd]
    simp only [e, hA]
    by_cases ha : t ∈ l ∧ (s.hdr t).status = Status.ALLOC
    · simp [ha]
    · simp only [ha, if_false]
      by_cases h0 : t = 0
      · have hnm : t ∉ l := fun h => IsChain.ne_zero c t h h0
        have hl : l ≠ [] := by
          intro hl
          rw [hl] at c
          exact hd (by rw [show s.data_block = 0 from c, h0])
        have hB := free_find_mapped_null s.hdr l s.data_block fuel c hf
        rw [if_neg hl] at hB
        rw [h0] at hnm ⊢
        simp [hB, hnm]
      · have hB := free_find_mapped_chain s.hdr t h0 l s.data_block fuel c hf
        by_cases hm : t ∈ l.tail ∧ (s.hdr t).status = Status.MAPPED
        · rw [if_pos hm] at hB
          obtain ⟨c', _, _, hc⟩ := hB
          have hmem : t ∈ l := List.mem_of_mem_tail hm.1
          simp [hc, hmem, hm.2]
        · rw [if_neg hm] at hB
          have hnl : ¬ (t ∈ l ∧ ((s.hdr t).status = Status.ALLOC ∨
              (s.hdr t).status = Status.MAPPED)) := by
            rintro ⟨h1, h2 | h2⟩
            · exact ha ⟨h1, h2⟩
            · rcases IsChain.mem_tail_or_head c h1 with h3 | h3
              · exact hd h3.symm
              · exact hm ⟨h3, h2⟩
          simp [hB, hnl, h0]

/-- C7 (amended): for a registry that is a null-terminated list `l` and a non-null `p`,
`os_free p` aborts (through `DIE`, or through a null dereference when `p - META_SIZE` is
null) exactly when `p - META_SIZE` is not a tracked block with status ALLOC or MAPPED;
otherwise it returns; an abort with `p - META_SIZE` non-null is the `DIE` of line 212, with
the state untouched; and `os_free NULL` returns with the state unchanged. -/
theorem os_free_aborts_iff (fuel : Nat) (s : State) (l : List Nat) (p : Nat)
    (c : IsChain s.hdr s.data_block l) (hf : l.length < fuel) (hp : p ≠ 0) :
    ((os_free fuel s p).aborted = true ↔
      ¬ (sub64 p META_SIZE ∈ l ∧
        ((s.hdr (sub64 p META_SIZE)).status = Status.ALLOC ∨
          (s.hdr (sub64 p META_SIZE)).status = Status.MAPPED))) ∧
    ((os_free fuel s p).aborted = false → ∃ s', os_free fuel s p = Outcome.ret () s') ∧
    (sub64 p META_SIZE ≠ 0 → (os_free fuel s p).aborted = true →
      os_free fuel s p = Outcome.die s) ∧
    os_free fuel s 0 = Outcome.ret () s := by
  have hz : os_free fuel s 0 = Outcome.ret () s := by simp [os_free]
  obtain ⟨h1, h2⟩ := os_free_cases fuel s l p c hf hp
  by_cases hl : sub64 p META_SIZE ∈ l ∧
        ((s.hdr (sub64 p META_SIZE)).status = Status.ALLOC ∨
          (s.hdr (sub64 p META_SIZE)).status = Status.MAPPED)
  · obtain ⟨s', hs'⟩ := h1 hl
    refine ⟨?_, fun _ => ⟨s', hs'⟩, ?_, hz⟩
    · simp [hs', Outcome.aborted, hl]
    · intro _ h; simp [hs', Outcome.aborted] at h
  · have h := h2 hl
    refine ⟨?_, ?_, ?_, hz⟩
    · rw [h]; split <;> simp [Outcome.aborted, hl]
    · rw [h]; split <;> simp [Outcome.aborted]
    · intro h0 _; rw [h, if_neg h0]

/-- C7 (amended) at a concrete input: freeing the one live block of `st_one`. -/
theorem os_free_aborts_iff_witness :
    ((os_free 2 st_one 4120).aborted = true ↔
      ¬ (sub64 4120 META_SIZE ∈ [4096] ∧
        ((st_one.hdr (sub64 4120 META_SIZE)).status = Status.ALLOC ∨
          (st_one.hdr (sub64 4120 META_SIZE)).status = Status.MAPPED))) ∧
    ((os_free 2 st_one 4120).aborted = false →
      ∃ s', os_free 2 st_one 4120 = Outcome.ret () s') ∧
    (sub64 4120 META_SIZE ≠ 0 → (os_free 2 st_one 4120).aborted = true →
      os_free 2 st_one 4120 = Outcome.die st_one) ∧
    os_free 2 st_one 0 = Outcome.ret () st_one :=
  os_free_aborts_iff 2 st_one [4096] 4120 (by decide) (by decide) (by decide)

@[simp] theorem set_size_frame (s : State) (p v : Nat) : (set_size s p v).frame = s.frame := rfl

@[simp] theorem set_status_frame (s : State) (p : Nat) (v : Status) :
    (set_status s p v).frame = s.frame := rfl

@[simp] theorem set_next_frame (s : State) (p v : Nat) : (set_next s p v).frame = s.frame := rfl

@[simp] theorem zero_fill_frame (s : State) (p n : Nat) : (zero_fill s p n).frame = s.frame := rfl

@[simp] theorem zero_fill_hdr (s : State) (p n : Nat) : (zero_fill s p n).hdr = s.hdr := rfl

@[simp] theorem coalesce_prev_frame (s : State) (b p : Nat) :
    (coalesce_prev s b p).frame = s.frame := rfl

@[simp] theorem coalesce_next_frame (s : State) (b n : Nat) :
    (coalesce_next s b n).frame = s.frame := rfl

@[simp] theorem malloc_coalesce_frame (s : State) (cur prev : Nat) :
    (malloc_coalesce s cur prev).1.frame = s.frame := by
  unfold malloc_coalesce
  simp only
  split <;> split <;> simp

@[simp] theorem malloc_split_frame (s : State) (cur size : Nat) :
    (malloc_split s cur size).frame = s.frame := by
  unfold malloc_split
  split
  · rfl
  · rfl

theorem frame_data_block {s t : State} (h : s.frame = t.frame) : s.data_block = t.data_block :=
  congrArg (fun x => x.1) h

theorem frame_count {s t : State} (h : s.frame = t.frame) : s.count = t.count :=
  congrArg (fun x => x.2.1) h

theorem frame_brk {s t : State} (h : s.frame = t.frame) : s.brk = t.brk :=
  congrArg (fun x => x.2.2.1) h

theorem frame_map_next {s t : State} (h : s.frame = t.frame) : s.map_next = t.map_next :=
  congrArg (fun x => x.2.2.2.2.1) h

theorem frame_maps {s t : State} (h : s.frame = t.frame) : s.maps = t.maps :=
  congrArg (fun x => x.2.2.2.2.2.2) h

/-- Freeing a tracked ALLOCATED block marks it FREE and does nothing else. -/
theorem os_free_alloc (fuel : Nat) (s : State) (l : List Nat) (b : Nat)
    (c : IsChain s.hdr s.data_block l) (hf : l.length < fuel) (hb : b ∈ l)
    (hst : (s.hdr b).status = Status.ALLOC)
    (hb64 : b + META_SIZE < 18446744073709551616) :
    os_free fuel s (b + META_SIZE) = Outcome.ret () (set_status s b Status.FREE) := by
  rw [META_SIZE_eq] at hb64
  have hb0 : b ≠ 0 := IsChain.ne_zero c b hb
  have ht : sub64 (b + META_SIZE) META_SIZE = b := by
    simp only [sub64, META_SIZE_eq]; omega
  have hp : b + META_SIZE ≠ 0 := by rw [META_SIZE_eq]; omega
  have hA := free_find_alloc_chain s.hdr b l s.data_block fuel c hf
  have e : head_is_mapped s b = some false := by
    unfold head_is_mapped
    by_cases hd : s.data_block = b
    · simp [hd, hb0, hst]
    · simp [hd]
  unfold os_free
  simp only [hp, if_false, ht, e, hA]
  simp [hb, hst]

theorem IsChain.tail_of {hdr : Nat → block_meta} {l1 r : List Nat} {p a : Nat}
    (c : IsChain hdr p (l1 ++ a :: r)) : IsChain hdr (hdr a).next r :=
  (IsChain.drop c).2.2

theorem IsChain.splice {h1 h2 : Nat → block_meta} :
    ∀ {l1 : List Nat} {p a : Nat} {r1 r2 : List Nat}, IsChain h1 p (l1 ++ a :: r1) →
      (∀ x ∈ l1, (h1 x).next = (h2 x).next) → IsChain h2 (h2 a).next r2 →
      IsChain h2 p (l1 ++ a :: r2)
  | [], _, _, _, _, c, _, d => ⟨c.1, c.2.1, d⟩
  | b :: l1, p, a, r1, r2, c, h, d => by
    obtain ⟨c1, c2, c3⟩ := c
    refine ⟨c1, c2, ?_⟩
    rw [← h b (List.mem_cons_self b l1)]
    exact IsChain.splice c3 (fun x hx => h x (List.mem_cons_of_mem b hx)) d

theorem lastOr_split : ∀ (l : List Nat) (a : Nat), ∃ l1, a :: l = l1 ++ [lastOr l a]
  | [], a => ⟨[], rfl⟩
  | b :: l, a => by
    obtain ⟨l1, h⟩ := lastOr_split l b
    exact ⟨a :: l1, by simp only [lastOr, List.cons_append, h]⟩

theorem ALIGN_ge (x : Nat) (h : x + 7 < 18446744073709551616) : x ≤ ALIGN x := by
  simp only [ALIGN, add64, ALIGNMENT]
  omega

theorem mmap_ok (s : State) (len : Nat) (h1 : len ≠ 0) (h2 : s.map_next + len ≤ s.map_limit) :
    mmap s len = some (s.map_next, mapped s len) := by
  have : ¬ (len = 0 ∨ s.map_limit < s.map_next + len) := by omega
  simp only [mmap, this, if_false]

@[simp] theorem set_size_data_block (s : State) (p v : Nat) :
    (set_size s p v).data_block = s.data_block := rfl

@[simp] theorem set_status_data_block (s : State) (p : Nat) (v : Status) :
    (set_status s p v).data_block = s.data_block := rfl

@[simp] theorem set_next_data_block (s : State) (p v : Nat) :
    (set_next s p v).data_block = s.data_block := rfl

@[simp] theorem mapped_hdr (s : State) (len : Nat) : (mapped s len).hdr = s.hdr := rfl

@[simp] theorem mapped_data_block (s : State) (len : Nat) :
    (mapped s len).data_block = s.data_block := rfl

/-- C5 (amended): on a registry that is a null-terminated list `l` of blocks whose headers
share no byte with one another, for `size ≥ 128 KiB`: when no request has been served yet
(`count = 0`), or when the list is not empty and holds no FREE block of at least `size` bytes,
`os_malloc size` is served by a fresh mapping, the kernel granting it at an address whose
header shares no byte with a header of `l`: the call returns the payload pointer of a header
placed at the start of the new mapping, recorded with `size` and status MAPPED, which is the
new head (first request) or the new tail; the mapping is added to the live mappings, the break
does not move, and no block of `l` changes its size or status. -/
theorem malloc_large_maps (fuel : Nat) (s : State) (l : List Nat) (size : Nat)
    (c : IsChain s.hdr s.data_block l) (hf : l.length < fuel)
    (hsize : MMAP_THRESHOLD ≤ size)
    (hs64 : size + SIZEOF_BLOCK_META + ALIGNMENT < 18446744073709551616)
    (hnew : s.count = 0 ∨ (l ≠ [] ∧ ∀ a ∈ l, ¬ Fits s.hdr size a))
    (hsep : (s.map_next :: l).Pairwise Apart) (hm0 : s.map_next ≠ 0)
    (hm64 : s.map_next + META_SIZE < 18446744073709551616)
    (hlim : s.map_next + ALIGN (size + SIZEOF_BLOCK_META) ≤ s.map_limit) :
    ∃ s', os_malloc fuel s size = Outcome.ret (s.map_next + META_SIZE) s' ∧
      s'.hdr s.map_next = ⟨size, Status.MAPPED, 0⟩ ∧
      IsChain s'.hdr s'.data_block (if s.count = 0 then [s.map_next] else l ++ [s.map_next]) ∧
      s'.maps = (s.map_next, ALIGN (size + SIZEOF_BLOCK_META)) :: s.maps ∧
      s'.brk = s.brk ∧
      ∀ a ∈ l,
        (s'.hdr a).size = (s.hdr a).size ∧ (s'.hdr a).status = (s.hdr a).status := by
  have hfresh : s.map_next ∉ l := fresh_of_apart hsep
  have hT : MMAP_THRESHOLD = 131072 := by decide
  have hthr : size ≥ MMAP_THRESHOLD := hsize
  have hsz : size ≠ 0 := by rw [hT] at hsize; omega
  have hadd : add64 size SIZEOF_BLOCK_META = size + SIZEOF_BLOCK_META := by
    simp only [add64, SIZEOF_BLOCK_META, ALIGNMENT] at *; omega
  have hres : add64 s.map_next META_SIZE = s.map_next + META_SIZE := by
    simp only [add64, META_SIZE_eq] at *; omega
  have hge : size + SIZEOF_BLOCK_META ≤ ALIGN (size + SIZEOF_BLOCK_META) :=
    ALIGN_ge _ (by simp only [SIZEOF_BLOCK_META, ALIGNMENT] at *; omega)
  have hlen : ALIGN (size + SIZEOF_BLOCK_META) ≠ 0 := by omega
  unfold os_malloc
  simp only [hsz, if_false]
  by_cases hc : s.count = 0
  · simp only [hc, if_true]
    unfold setup_data_block
    simp only [hthr, if_true, hadd]
    rw [mmap_ok { s with count := s.count + 1 } _ hlen hlim]
    simp only [hres]
    refine ⟨_, rfl, ?_, ?_, rfl, rfl, ?_⟩
    · apply block_meta_ext <;> simp
    · exact ⟨rfl, hm0, by simp [IsChain]⟩
    · intro a hal
      have ha : a ≠ s.map_next := fun e => hfresh (e ▸ hal)
      simp [ha]
  · obtain ⟨hl, hnofit⟩ := hnew.resolve_left hc
    simp only [hc, if_false]
    rw [find_fit_miss s.hdr size l s.data_block 0 fuel c hnofit hf]
    simp only [ne_eq, not_true_eq_false, if_false]
    obtain ⟨a, l', rfl⟩ : ∃ a l', l = a :: l' := by
      cases l with
      | nil => exact absurd rfl hl
      | cons a l' => exact ⟨a, l', rfl⟩
    have hda : s.data_block = a := c.1
    have ha0 : a ≠ 0 := c.2.1
    unfold malloc_miss
    simp only [hthr, if_true, hadd]
    rw [mmap_ok _ _ hlen hlim]
    simp only []
    -- the state in which the walk to the tail runs
    generalize hs1 : set_next (set_status (set_size (mapped s (ALIGN (size + SIZEOF_BLOCK_META)))
      s.map_next size) s.map_next Status.MAPPED) s.map_next 0 = s1
    have hs1n : ∀ x, x ≠ s.map_next → (s1.hdr x).next = (s.hdr x).next := by
      intro x hx; rw [← hs1]; simp [hx, mapped]
    have hs1d : s1.data_block = a := by rw [← hs1]; exact hda
    have c1 : IsChain s1.hdr a (a :: l') := by
      rw [hda] at c
      refine IsChain.congr (fun x hx => ?_) c
      exact (hs1n x (fun e => hfresh (e ▸ hx))).symm
    simp only [hs1d, ha0, if_false]
    rw [find_last_chain s1.hdr l' a fuel c1 (by simp only [List.length_cons] at hf; omega)]
    simp only [hres]
    obtain ⟨l1, hl1⟩ := lastOr_split l' a
    have hlast : lastOr l' a ∈ a :: l' := by rw [hl1]; simp
    have hlr : lastOr l' a ≠ s.map_next := fun e => hfresh (e ▸ hlast)
    refine ⟨_, rfl, ?_, ?_, ?_, ?_, ?_⟩
    · apply block_meta_ext <;> rw [← hs1] <;> simp [Ne.symm hlr]
    · show IsChain _ s1.data_block _
      rw [hs1d, hl1, List.append_assoc]
      have hnd := IsChain.nodup c1
      rw [hl1] at c1 hnd
      apply IsChain.splice c1
      · intro x hx
        have hxl : x ≠ lastOr l' a := by
          intro e
          exact (List.nodup_append.mp hnd).2.2 hx (by rw [e]; exact List.mem_singleton_self _)
        simp [hxl]
      · have hm : s.map_next ≠ lastOr l' a := Ne.symm hlr
        refine ⟨by simp, hm0, ?_⟩
        show _ = 0
        rw [← hs1]; simp [hm]
    · rw [← hs1]; rfl
    · rw [← hs1]; rfl
    · intro x hxl
      have hx : x ≠ s.map_next := fun e => hfresh (e ▸ hxl)
      rw [← hs1]; simp [hx, mapped]

/-- C1, at a reachable state: after `os_malloc 8`, `os_malloc 8`, `os_malloc 100` and the
release of the last two blocks, `os_malloc 50` matches the block at `135200`, merges it into
its FREE predecessor at `135168` and returns `135224`, the payload pointer of the absorbed
block: no tracked block has that payload pointer, and the block whose bytes it points into
is recorded FREE. -/
theorem os_malloc_returns_untracked_pointer :
    ∃ s s' p,
      run 20 init [Call.malloc 8, Call.malloc 8, Call.malloc 100, Call.free 135192,
        Call.free 135224] = some s ∧
      registry 20 s =
        [(4096, 8, Status.ALLOC), (135168, 8, Status.FREE), (135200, 100, Status.FREE)] ∧
      os_malloc 20 s 50 = Outcome.ret p s' ∧ p = 135224 ∧
      registry 20 s' =
        [(4096, 8, Status.ALLOC), (135168, 50, Status.FREE), (135248, 58, Status.FREE)] ∧
      ∀ b ∈ registry 20 s',
        ¬ (p = b.1 + META_SIZE ∧ (b.2.2 = Status.ALLOC ∨ b.2.2 = Status.MAPPED) ∧ 50 ≤ b.2.1) :=
  ⟨_, _, _, rfl, by decide, rfl, rfl, by decide, by decide⟩

/-- C2, at the same reachable state: `os_malloc 50` returns `p = 135224` after zero-filling
`p .. p + 49`, and then writes the header of the split block at `135248`; the 24 bytes of
that header, whose `size` field holds `58`, lie inside `p .. p + 49`. -/
theorem os_malloc_split_header_in_payload :
    ∃ s s' p,
      run 20 init [Call.malloc 8, Call.malloc 8, Call.malloc 100, Call.free 135192,
        Call.free 135224] = some s ∧
      os_malloc 20 s 50 = Outcome.ret p s' ∧
      (135248, 58, Status.FREE) ∈ registry 20 s' ∧
      p ≤ 135248 ∧ 135248 + SIZEOF_BLOCK_META ≤ p + 50 :=
  ⟨_, _, _, rfl, rfl, by decide, by decide, by decide⟩

/-- C6, at a reachable state: `os_malloc 200000` as a later request appends a MAPPED block at
`4294967296`; `os_realloc` of it to 8 bytes splits it, leaving a FREE block at `4294967328`
inside the mapping, and the next `os_malloc 100` is served from that FREE block. -/
theorem os_realloc_splits_mapped_block :
    ∃ s s1 s2 p,
      run 20 init [Call.malloc 8, Call.malloc 200000] = some s ∧
      registry 20 s = [(4096, 8, Status.ALLOC), (4294967296, 200000, Status.MAPPED)] ∧
      s.maps = [(4294967296, 200024)] ∧
      os_realloc 20 s (4294967296 + META_SIZE) 8 = Outcome.ret (4294967296 + META_SIZE) s1 ∧
      registry 20 s1 =
        [(4096, 8, Status.ALLOC), (4294967296, 8, Status.MAPPED),
          (4294967328, 199968, Status.FREE)] ∧
      os_malloc 20 s1 100 = Outcome.ret p s2 ∧ p = 4294967328 + META_SIZE ∧
      registry 20 s2 =
        [(4096, 8, Status.ALLOC), (4294967296, 8, Status.MAPPED),
          (4294967328, 100, Status.ALLOC), (4294967456, 199844, Status.FREE)] :=
  ⟨_, _, _, _, rfl, by decide, rfl, rfl, by decide, rfl, by decide, by decide⟩

/-- C8, at a reachable state: with a MAPPED head at `4294967296` followed by a live
ALLOCATED block at `4096`, `os_free` of the head clears `data_block`: the registry is empty
afterwards, the block at `4096` is no longer tracked, and its release aborts. -/
theorem os_free_mapped_head_drops_registry :
    ∃ s s',
      run 20 init [Call.malloc 200000, Call.malloc 8] = some s ∧
      registry 20 s = [(4294967296, 200000, Status.MAPPED), (4096, 8, Status.ALLOC)] ∧
      os_free 20 s (4294967296 + META_SIZE) = Outcome.ret () s' ∧
      s'.data_block = 0 ∧ registry 20 s' = [] ∧
      os_free 20 s' (4096 + META_SIZE) = Outcome.die s' :=
  ⟨_, _, rfl, by decide, rfl, by decide, by decide, rfl⟩

/-- C9, at a reachable state: the block at `135168` has 16 bytes and its next block `N` at
`135208` is FREE with 104 bytes.  `os_realloc` to 40 bytes returns the same pointer and
records 40, but `N` stays the block's successor, cut to 24 bytes, with its header inside the
block's payload `135192 .. 135231`, followed by a new FREE block of 56 bytes at `135256`;
the claim's leftover would be one FREE block of 80 bytes at `135232`.  `os_realloc` to 128
bytes computes `104 - 112 - 24` by wrapping subtraction. -/
theorem os_realloc_grow_keeps_next_block :
    ∃ s s1 s2,
      run 20 init [Call.malloc 8, Call.malloc 16, Call.malloc 104, Call.free 135232] = some s ∧
      registry 20 s =
        [(4096, 8, Status.ALLOC), (135168, 16, Status.ALLOC), (135208, 104, Status.FREE)] ∧
      os_realloc 20 s (135168 + META_SIZE) 40 = Outcome.ret (135168 + META_SIZE) s1 ∧
      registry 20 s1 =
        [(4096, 8, Status.ALLOC), (135168, 40, Status.ALLOC), (135208, 24, Status.FREE),
          (135256, 56, Status.FREE)] ∧
      135168 + META_SIZE ≤ 135208 ∧ 135208 < 135168 + META_SIZE + 40 ∧
      os_realloc 20 s (135168 + META_SIZE) 128 = Outcome.ret (135168 + META_SIZE) s2 ∧
      registry 20 s2 =
        [(4096, 8, Status.ALLOC), (135168, 128, Status.ALLOC), (135208, 112, Status.FREE),
          (135344, 18446744073709551584, Status.FREE)] :=
  ⟨_, _, _, rfl, by decide, rfl, by decide, by decide, by decide, rfl, by decide⟩

/-- C5 (amended) at a concrete input: `os_malloc 200000` on `st_one`, whose one block is
ALLOCATED. -/
theorem malloc_large_maps_witness :
    ∃ s', os_malloc 2 st_one 200000 = Outcome.ret (st_one.map_next + META_SIZE) s' ∧
      s'.hdr st_one.map_next = ⟨200000, Status.MAPPED, 0⟩ ∧
      IsChain s'.hdr s'.data_block
        (if st_one.count = 0 then [st_one.map_next] else [4096] ++ [st_one.map_next]) ∧
      s'.maps = (st_one.map_next, ALIGN (200000 + SIZEOF_BLOCK_META)) :: st_one.maps ∧
      s'.brk = st_one.brk ∧
      ∀ a ∈ [4096],
        (s'.hdr a).size = (st_one.hdr a).size ∧ (s'.hdr a).status = (st_one.hdr a).status :=
  malloc_large_maps 2 st_one [4096] 200000 (by decide) (by decide) (by decide) (by decide)
    (Or.inr ⟨by decide, by decide⟩) (by decide) (by decide) (by decide) (by decide)

/-- C11, at a reachable state: the first request `os_malloc 200000` leaves a MAPPED head at
`4294967296`.  `os_realloc` of it to 300000 bytes maps a new block at `4295168000`, appends
it, copies, and then releases the old block through the head case of `os_free`, which clears
`data_block`: the call returns the new payload pointer, but the registry is empty, the new
block is not tracked although its mapping is live, and its release aborts. -/
theorem os_realloc_relocation_drops_new_block :
    ∃ s s' q,
      run 20 init [Call.malloc 200000] = some s ∧
      registry 20 s = [(4294967296, 200000, Status.MAPPED)] ∧
      os_realloc 20 s (4294967296 + META_SIZE) 300000 = Outcome.ret q s' ∧
      q = 4295168000 + META_SIZE ∧
      s'.data_block = 0 ∧ registry 20 s' = [] ∧
      s'.hdr 4295168000 = ⟨300000, Status.MAPPED, 0⟩ ∧
      s'.maps = [(4295168000, 300024)] ∧
      os_free 20 s' q = Outcome.die s' :=
  ⟨_, _, _, rfl, by decide, rfl, by decide, by decide, by decide, by decide, by decide, rfl⟩

/-- C13, at the first request: `os_calloc 1 5000` maps a region at `4294967296` and records
a MAPPED header of 5000 bytes there, but does not assign `data_block`: the registry stays
empty, and `os_free` of the returned pointer leaves through `DIE` with the mapping still
live. -/
theorem os_calloc_first_mapping_untracked :
    ∃ s p,
      os_calloc 20 init 1 5000 = Outcome.ret p s ∧ p = 4294967296 + SIZEOF_BLOCK_META ∧
      s.hdr 4294967296 = ⟨5000, Status.MAPPED, 0⟩ ∧
      s.maps = [(4294967296, 5024)] ∧
      s.data_block = 0 ∧ registry 20 s = [] ∧
      os_free 20 s p = Outcome.die s :=
  ⟨_, _, rfl, by decide, by decide, by decide, by decide, by decide, rfl⟩

/-- C14, at a reachable state: the first request `os_calloc 1 8` moves the break by the
128 KiB bootstrap chunk and leaves `count = 0`; the following `os_malloc 8` runs the
bootstrap again, moves the break by another 128 KiB and replaces the head, so that the
block at `4096` is no longer tracked. -/
theorem bootstrap_runs_twice :
    ∃ s1 s2 p1 p2,
      os_calloc 20 init 1 8 = Outcome.ret p1 s1 ∧ p1 = 4096 + META_SIZE ∧
      s1.brk = init.brk + MMAP_THRESHOLD ∧ s1.count = 0 ∧
      registry 20 s1 = [(4096, 8, Status.ALLOC)] ∧
      os_malloc 20 s1 8 = Outcome.ret p2 s2 ∧ p2 = 135168 + META_SIZE ∧
      s2.brk = s1.brk + MMAP_THRESHOLD ∧
      s2.data_block = 135168 ∧ registry 20 s2 = [(135168, 8, Status.ALLOC)] :=
  ⟨_, _, _, _, rfl, by decide, by decide, by decide, by decide, rfl, by decide, by decide,
    by decide, by decide⟩

/-- C17, at a reachable state: the FREE block at `a = 135168` has `m = 100` bytes and is
followed by a live block at `135296`.  `os_malloc 50` reuses and splits it: the served block
records 50 bytes, but the new FREE header is at `a + ALIGN (50 + 24) = 135248`, not at
`a + 24 + 50 = 135242`, with `100 - 50 - 24 = 26` bytes, so that its payload ends at
`135298`, past the end `135292` of the original block and inside the header of the next
block; `os_malloc 26` is then served from it, and the 26 bytes it returns at `135272` reach
into the header of the live block at `135296`. -/
theorem os_malloc_split_overruns_block :
    ∃ s s' s'' p q,
      run 20 init [Call.malloc 8, Call.malloc 100, Call.malloc 8, Call.free 135192] = some s ∧
      registry 20 s =
        [(4096, 8, Status.ALLOC), (135168, 100, Status.FREE), (135296, 8, Status.ALLOC)] ∧
      os_malloc 20 s 50 = Outcome.ret p s' ∧ p = 135168 + META_SIZE ∧
      registry 20 s' =
        [(4096, 8, Status.ALLOC), (135168, 50, Status.ALLOC), (135248, 26, Status.FREE),
          (135296, 8, Status.ALLOC)] ∧
      135248 = 135168 + ALIGN (50 + SIZEOF_BLOCK_META) ∧
      135248 ≠ 135168 + SIZEOF_BLOCK_META + 50 ∧
      135168 + SIZEOF_BLOCK_META + 100 < 135248 + SIZEOF_BLOCK_META + 26 ∧
      135296 < 135248 + SIZEOF_BLOCK_META + 26 ∧
      os_malloc 20 s' 26 = Outcome.ret q s'' ∧ q = 135248 + META_SIZE ∧
      q ≤ 135296 ∧ 135296 < q + 26 :=
  ⟨_, _, _, _, _, rfl, by decide, rfl, by decide, by decide, by decide, by decide, by decide,
    by decide, rfl, by decide, by decide, by decide⟩

/-- C18, at two reachable states.  The bootstrap block `X` at `4096` records
8 bytes of its 128 KiB chunk, and its list successor `Y` is at `135168`, not at
`4096 + 24 + 8`; with both released, `os_malloc 8` matches `X` and merges `Y` into it, and
the merged size `8 + 24 + 8 = 40` describes bytes of the bootstrap chunk.  And a block `X` of
50 bytes that grew the heap at `135168` has its successor `Y` at `135168 + ALIGN (50 + 24)
= 135248`, not at `135168 + 24 + 50`; with both released, `os_malloc 50` merges them, and the
merged size `50 + 24 + 8 = 82` ends at `135274`, before the end `135280` of `Y`. -/
theorem os_malloc_merges_distant_blocks :
    (∃ s s' p,
      run 20 init [Call.malloc 8, Call.malloc 8, Call.free 4120, Call.free 135192] = some s ∧
      registry 20 s = [(4096, 8, Status.FREE), (135168, 8, Status.FREE)] ∧
      find_fit s.hdr 8 20 s.data_block 0 = some (4096, 0) ∧
      (s.hdr 4096).next = 135168 ∧
      135168 ≠ 4096 + SIZEOF_BLOCK_META + (s.hdr 4096).size ∧
      malloc_coalesce s 4096 0 =
        (coalesce_next (set_status s 4096 Status.ALLOC) 4096 135168, 4096) ∧
      ((malloc_coalesce s 4096 0).1.hdr 4096).size = 40 ∧
      os_malloc 20 s 8 = Outcome.ret p s' ∧
      registry 20 s' = [(4096, 8, Status.ALLOC), (4128, 8, Status.FREE)]) ∧
    (∃ s,
      run 20 init [Call.malloc 8, Call.malloc 50, Call.malloc 8, Call.free 135192,
        Call.free 135272] = some s ∧
      registry 20 s =
        [(4096, 8, Status.ALLOC), (135168, 50, Status.FREE), (135248, 8, Status.FREE)] ∧
      find_fit s.hdr 50 20 s.data_block 0 = some (135168, 4096) ∧
      (s.hdr 135168).next = 135248 ∧
      135248 = 135168 + ALIGN ((s.hdr 135168).size + SIZEOF_BLOCK_META) ∧
      135248 ≠ 135168 + SIZEOF_BLOCK_META + (s.hdr 135168).size ∧
      malloc_coalesce s 135168 4096 =
        (coalesce_next (set_status s 135168 Status.ALLOC) 135168 135248, 135168) ∧
      ((malloc_coalesce s 135168 4096).1.hdr 135168).size = 82 ∧
      135168 + SIZEOF_BLOCK_META + 82 < 135248 + SIZEOF_BLOCK_META + (s.hdr 135248).size) :=
  ⟨⟨_, _, _, rfl, by decide, by decide, by decide, by decide, rfl, by decide, rfl,
      by decide⟩,
    ⟨_, rfl, by decide, by decide, by decide, by decide, by decide, rfl, by decide,
      by decide⟩⟩

/-- C19, from the empty registry: after `os_malloc 8`, `os_malloc 8`, `os_malloc 100` and
the release of the last two blocks, `os_malloc 50` returns `p = 135224` and the next
`os_malloc 50` returns `q = 135192`; neither has been released since, and `p` lies inside
`q .. q + 49`. -/
theorem live_allocations_overlap :
    ∃ s1 s2 s3 p q,
      run 20 init [Call.malloc 8, Call.malloc 8, Call.malloc 100, Call.free 135192,
        Call.free 135224] = some s1 ∧
      os_malloc 20 s1 50 = Outcome.ret p s2 ∧
      os_malloc 20 s2 50 = Outcome.ret q s3 ∧
      p = 135224 ∧ q = 135192 ∧ p ≠ q ∧ q ≤ p ∧ p < q + 50 :=
  ⟨_, _, _, _, _, rfl, rfl, rfl, by decide, by decide, by decide, by decide, by decide⟩

/-- C20, from the empty registry: after `os_malloc 200000` and the release of its block,
`data_block` is null while `count = 1`; the next `os_malloc 8` is not the first request,
finds no block, reaches the miss path and reads `last->next` through the null head. -/
theorem os_malloc_miss_null_head :
    ∃ s,
      run 20 init [Call.malloc 200000, Call.free 4294967320] = some s ∧
      s.data_block = 0 ∧ s.count = 1 ∧
      find_fit s.hdr 8 20 s.data_block 0 = some (0, 0) ∧
      os_malloc 20 s 8 = Outcome.fault :=
  ⟨_, rfl, by decide, by decide, by decide, rfl⟩

/-- C12: a request of size zero through any entry point returns null and leaves the state
as it is: `os_malloc 0`, `os_calloc` with `nmemb = 0` or with `size = 0`, and
`os_realloc NULL 0`. -/
theorem zero_size_requests (fuel : Nat) (s : State) :
    os_malloc fuel s 0 = Outcome.ret 0 s ∧
    (∀ size, os_calloc fuel s 0 size = Outcome.ret 0 s) ∧
    (∀ nmemb, os_calloc fuel s nmemb 0 = Outcome.ret 0 s) ∧
    os_realloc fuel s 0 0 = Outcome.ret 0 s := by
  have h : os_malloc fuel s 0 = Outcome.ret 0 s := by simp [os_malloc]
  refine ⟨h, ?_, ?_, ?_⟩
  · intro size; simp [os_calloc]
  · intro nmemb; simp [os_calloc]
  · simp [os_realloc, h]

theorem sbrk_ok (s : State) (inc : Nat) (h : s.brk + inc ≤ s.brk_limit) :
    sbrk s inc = some (s.brk, { s with brk := s.brk + inc }) := by
  simp only [sbrk, h, if_true]

/-- The end of the miss path: the header of the new block is written at a fresh address,
the walk reaches the tail, and the tail is linked to the new block. -/
theorem append_block (fuel : Nat) (s0 : State) (a : Nat) (l' : List Nat) (new size : Nat)
    (st : Status) (c : IsChain s0.hdr s0.data_block (a :: l'))
    (hf : (a :: l').length < fuel) (hfresh : new ∉ a :: l') (hn0 : new ≠ 0) :
    find_last (set_next (set_status (set_size s0 new size) new st) new 0).hdr fuel
        s0.data_block = some (lastOr l' a) ∧
      (set_next (set_next (set_status (set_size s0 new size) new st) new 0)
        (lastOr l' a) new).hdr new = ⟨size, st, 0⟩ ∧
      IsChain (set_next (set_next (set_status (set_size s0 new size) new st) new 0)
        (lastOr l' a) new).hdr s0.data_block (a :: l' ++ [new]) ∧
      (∀ x, x ≠ new →
        ((set_next (set_next (set_status (set_size s0 new size) new st) new 0)
          (lastOr l' a) new).hdr x).size = (s0.hdr x).size ∧
        ((set_next (set_next (set_status (set_size s0 new size) new st) new 0)
          (lastOr l' a) new).hdr x).status = (s0.hdr x).status) ∧
      (∀ x, x ≠ new → x ≠ lastOr l' a →
        ((set_next (set_next (set_status (set_size s0 new size) new st) new 0)
          (lastOr l' a) new).hdr x).next = (s0.hdr x).next) := by
  generalize hs1 : set_next (set_status (set_size s0 new size) new st) new 0 = s1
  have hs1n : ∀ x, x ≠ new → (s1.hdr x).next = (s0.hdr x).next := by
    intro x hx; rw [← hs1]; simp [hx]
  have hda : s0.data_block = a := c.1
  have c1 : IsChain s1.hdr a (a :: l') := by
    rw [hda] at c
    refine IsChain.congr (fun x hx => ?_) c
    exact (hs1n x (fun e => hfresh (e ▸ hx))).symm
  obtain ⟨l1, hl1⟩ := lastOr_split l' a
  have hlast : lastOr l' a ∈ a :: l' := by rw [hl1]; simp
  have hlr : lastOr l' a ≠ new := fun e => hfresh (e ▸ hlast)
  refine ⟨?_, ?_, ?_, ?_, ?_⟩
  · rw [hda]
    exact find_last_chain s1.hdr l' a fuel c1 (by simp only [List.length_cons] at hf; omega)
  · apply block_meta_ext <;> rw [← hs1] <;> simp [Ne.symm hlr]
  · rw [hda, hl1, List.append_assoc]
    have hnd := IsChain.nodup c1
    rw [hl1] at c1 hnd
    apply IsChain.splice c1
    · intro x hx
      have hxl : x ≠ lastOr l' a := by
        intro e
        exact (List.nodup_append.mp hnd).2.2 hx (by rw [e]; exact List.mem_singleton_self _)
      simp [hxl]
    · have hm : new ≠ lastOr l' a := Ne.symm hlr
      refine ⟨by simp, hn0, ?_⟩
      show _ = 0
      rw [← hs1]; simp [hm]
  · intro x hx
    rw [← hs1]; simp [hx]
  · intro x hx hxl
    rw [← hs1]; simp [hx, hxl]

/-- The miss path on a registry that is a non-empty list: the new block becomes the tail. -/
theorem malloc_miss_appends (fuel : Nat) (s : State) (a : Nat) (l' : List Nat) (size : Nat)
    (c : IsChain s.hdr s.data_block (a :: l')) (hf : (a :: l').length < fuel)
    (hs0 : 0 < size)
    (hs64 : size + SIZEOF_BLOCK_META + ALIGNMENT < 18446744073709551616)
    (hfresh : miss_address s size ∉ a :: l') (hn0 : miss_address s size ≠ 0)
    (hn64 : miss_address s size + META_SIZE < 18446744073709551616)
    (hgrant : miss_granted s size) :
    ∃ s', malloc_miss fuel s size = Outcome.ret (miss_address s size + META_SIZE) s' ∧
      s'.hdr (miss_address s size) = ⟨size, miss_status size, 0⟩ ∧
      IsChain s'.hdr s'.data_block (a :: l' ++ [miss_address s size]) ∧
      (∀ x, x ≠ miss_address s size →
        (s'.hdr x).size = (s.hdr x).size ∧ (s'.hdr x).status = (s.hdr x).status) ∧
      (∀ x, x ≠ miss_address s size → x ≠ lastOr l' a → (s'.hdr x).next = (s.hdr x).next) ∧
      s'.count = s.count ∧
      s'.brk = (if size ≥ MMAP_THRESHOLD then s.brk
        else s.brk + ALIGN (size + SIZEOF_BLOCK_META)) ∧
      s'.brk_limit = s.brk_limit ∧
      s'.data_block = s.data_block ∧
      s'.maps = (if size ≥ MMAP_THRESHOLD then
        (s.map_next, ALIGN (size + SIZEOF_BLOCK_META)) :: s.maps else s.maps) ∧
      s'.map_next = (if size ≥ MMAP_THRESHOLD then
        s.map_next + (ALIGN (size + SIZEOF_BLOCK_META) + 4095) / 4096 * 4096
        else s.map_next) := by
  have hadd : add64 size SIZEOF_BLOCK_META = size + SIZEOF_BLOCK_META := by
    simp only [add64, SIZEOF_BLOCK_META, ALIGNMENT] at *; omega
  have hres : add64 (miss_address s size) META_SIZE = miss_address s size + META_SIZE := by
    simp only [add64, META_SIZE_eq] at *; omega
  have hge : size + SIZEOF_BLOCK_META ≤ ALIGN (size + SIZEOF_BLOCK_META) :=
    ALIGN_ge _ (by simp only [SIZEOF_BLOCK_META, ALIGNMENT] at *; omega)
  have hlen : ALIGN (size + SIZEOF_BLOCK_META) ≠ 0 := by omega
  have hda : s.data_block = a := c.1
  have ha0 : a ≠ 0 := c.2.1
  unfold malloc_miss
  by_cases h : size ≥ MMAP_THRESHOLD
  · simp only [miss_address, miss_granted, miss_status, h, if_true] at *
    simp only [hadd]
    rw [mmap_ok _ _ hlen hgrant]
    simp only [set_next_data_block, set_status_data_block, set_size_data_block]
    have c0 : IsChain (mapped s (ALIGN (size + SIZEOF_BLOCK_META))).hdr
        (mapped s (ALIGN (size + SIZEOF_BLOCK_META))).data_block (a :: l') := c
    obtain ⟨k1, k2, k3, k4, k5⟩ := append_block fuel _ a l' s.map_next size Status.MAPPED
      c0 hf hfresh hn0
    have hd0 : ¬ (mapped s (ALIGN (size + SIZEOF_BLOCK_META))).data_block = 0 := by
      rw [mapped_data_block, hda]; exact ha0
    simp only [hd0, if_false, k1, hres]
    exact ⟨_, rfl, k2, k3, k4, k5, rfl, rfl, rfl, rfl, rfl, rfl⟩
  · simp only [miss_address, miss_granted, miss_status, h, if_false] at *
    simp only [hadd]
    rw [sbrk_ok _ _ hgrant]
    simp only [set_next_data_block, set_status_data_block, set_size_data_block]
    have c0 : IsChain ({ s with brk := s.brk + ALIGN (size + SIZEOF_BLOCK_META) } : State).hdr
        ({ s with brk := s.brk + ALIGN (size + SIZEOF_BLOCK_META) } : State).data_block
        (a :: l') := c
    obtain ⟨k1, k2, k3, k4, k5⟩ := append_block fuel _ a l' s.brk size Status.ALLOC
      c0 hf hfresh hn0
    have hd0 : ¬ ({ s with brk := s.brk + ALIGN (size + SIZEOF_BLOCK_META) } :
        State).data_block = 0 := by
      show ¬ s.data_block = 0
      rw [hda]; exact ha0
    simp only [hd0, if_false, k1, hres]
    exact ⟨_, rfl, k2, k3, k4, k5, rfl, rfl, rfl, rfl, rfl, rfl⟩

theorem malloc_hit_ret (s : State) (b prev size : Nat) (p : Nat) (s' : State)
    (h : malloc_hit s b prev size = Outcome.ret p s') :
    p = add64 b META_SIZE ∧ s'.frame = s.frame := by
  unfold malloc_hit at h
  have hfr := malloc_coalesce_frame s b prev
  rcases hc : malloc_coalesce s b prev with ⟨sc, cur⟩
  rw [hc] at h hfr
  simp only at h hfr
  by_cases h32 : size ≥ 4294967296
  · simp [h32] at h
  · simp only [h32, if_false, Outcome.ret.injEq] at h
    obtain ⟨h1, h2⟩ := h
    refine ⟨h1.symm, ?_⟩
    rw [← h2]
    simp [hfr]

/-- The hit path returns for a request below `2 ^ 32`: the payload pointer of the matched
block, with the globals and the kernel's bookkeeping as they were. -/
theorem malloc_hit_returns (s : State) (b prev size : Nat) (h : size < 4294967296) :
    ∃ s', malloc_hit s b prev size = Outcome.ret (add64 b META_SIZE) s' ∧
      s'.frame = s.frame := by
  unfold malloc_hit
  have hfr := malloc_coalesce_frame s b prev
  rcases hc : malloc_coalesce s b prev with ⟨sc, cur⟩
  rw [hc] at hfr
  have h32 : ¬ size ≥ 4294967296 := by omega
  simp only [h32, if_false]
  exact ⟨_, rfl, by simpa using hfr⟩

theorem first_fit_exists (hdr : Nat → block_meta) (size : Nat) :
    ∀ l : List Nat, (∀ a ∈ l, ¬ Fits hdr size a) ∨
      ∃ l1 b l2, l = l1 ++ b :: l2 ∧ (∀ a ∈ l1, ¬ Fits hdr size a) ∧ Fits hdr size b
  | [] => Or.inl (by simp)
  | a :: l => by
    by_cases h : Fits hdr size a
    · exact Or.inr ⟨[], a, l, rfl, by simp, h⟩
    · rcases first_fit_exists hdr size l with h' | ⟨l1, b, l2, e, h1, h2⟩
      · left
        intro x hx
        rcases List.mem_cons.mp hx with hx | hx
        · rw [hx]; exact h
        · exact h' x hx
      · right
        refine ⟨a :: l1, b, l2, by rw [e]; rfl, ?_, h2⟩
        intro x hx
        rcases List.mem_cons.mp hx with hx | hx
        · rw [hx]; exact h
        · exact h1 x hx

/-- The walk to the tail and the link to a new block, for any state in which the header at
the fresh address `new` already has a null `next`. -/
theorem link_tail (fuel : Nat) (s1 : State) (a : Nat) (l' : List Nat) (new : Nat)
    (c : IsChain s1.hdr s1.data_block (a :: l')) (hf : (a :: l').length < fuel)
    (hfresh : new ∉ a :: l') (hn0 : new ≠ 0) (hnn : (s1.hdr new).next = 0) :
    find_last s1.hdr fuel s1.data_block = some (lastOr l' a) ∧
      IsChain (set_next s1 (lastOr l' a) new).hdr s1.data_block (a :: l' ++ [new]) ∧
      lastOr l' a ≠ new := by
  have hda : s1.data_block = a := c.1
  have c1 : IsChain s1.hdr a (a :: l') := by rw [hda] at c; exact c
  obtain ⟨l1, hl1⟩ := lastOr_split l' a
  have hlast : lastOr l' a ∈ a :: l' := by rw [hl1]; simp
  have hlr : lastOr l' a ≠ new := fun e => hfresh (e ▸ hlast)
  refine ⟨?_, ?_, hlr⟩
  · rw [hda]
    exact find_last_chain s1.hdr l' a fuel c1 (by simp only [List.length_cons] at hf; omega)
  · rw [hda, hl1, List.append_assoc]
    have hnd := IsChain.nodup c1
    rw [hl1] at c1 hnd
    apply IsChain.splice c1
    · intro x hx
      have hxl : x ≠ lastOr l' a := by
        intro e
        exact (List.nodup_append.mp hnd).2.2 hx (by rw [e]; exact List.mem_singleton_self _)
      simp [hxl]
    · refine ⟨by simp, hn0, ?_⟩
      show _ = 0
      simp [Ne.symm hlr, hnn]

/-- A request below the mapping threshold never maps: when `os_malloc` returns, the live
mappings and the place of the next mapping are what they were. -/
theorem os_malloc_small_no_map (fuel : Nat) (s : State) (size : Nat)
    (hsmall : size < MMAP_THRESHOLD) (p : Nat) (s' : State)
    (h : os_malloc fuel s size = Outcome.ret p s') :
    s'.maps = s.maps ∧ s'.map_next = s.map_next := by
  have hthr : ¬ size ≥ MMAP_THRESHOLD := by omega
  unfold os_malloc at h
  by_cases hz : size = 0
  · simp only [hz, if_true, Outcome.ret.injEq] at h
    rw [← h.2]; exact ⟨rfl, rfl⟩
  · simp only [hz, if_false] at h
    by_cases hc : s.count = 0
    · simp only [hc, if_true] at h
      unfold setup_data_block at h
      simp only [hthr, if_false, sbrk] at h
      split at h
      · exact Outcome.noConfusion h
      · rename_i result s0 heq
        split at heq
        · simp only [Option.some.injEq, Prod.mk.injEq] at heq
          simp only [Outcome.ret.injEq] at h
          rw [← h.2, ← heq.2]; exact ⟨rfl, rfl⟩
        · exact Option.noConfusion heq
    · simp only [hc, if_false] at h
      split at h
      · exact Outcome.noConfusion h
      · rename_i current prev _
        by_cases hcur : current ≠ 0
        · rw [if_pos hcur] at h
          have := (malloc_hit_ret s current prev size p s' h).2
          exact ⟨frame_maps this, frame_map_next this⟩
        · rw [if_neg hcur] at h
          unfold malloc_miss at h
          simp only [hthr, if_false, sbrk] at h
          split at h
          · exact Outcome.noConfusion h
          · rename_i res s0 heq
            split at heq
            · simp only [Option.some.injEq, Prod.mk.injEq] at heq
              split at h
              · exact Outcome.noConfusion h
              · split at h
                · exact Outcome.noConfusion h
                · simp only [Outcome.ret.injEq] at h
                  rw [← h.2, ← heq.2]; exact ⟨rfl, rfl⟩
            · exact Option.noConfusion heq

theorem find_fit_none_of_next (hdr : Nat → block_meta) (size a : Nat) (ha : a ≠ 0)
    (hfit : ¬ Fits hdr size a)
    (h : ∀ fuel prev, find_fit hdr size fuel (hdr a).next prev = none) :
    ∀ fuel prev, find_fit hdr size fuel a prev = none
  | 0, _ => rfl
  | fuel + 1, prev => by
    have hfit2 : ¬ ((hdr a).status = Status.FREE ∧ (hdr a).size ≥ size) := hfit
    simp only [find_fit, ha, hfit2, if_false]
    exact h fuel a

theorem find_fit_none_of_self (hdr : Nat → block_meta) (size a : Nat) (ha : a ≠ 0)
    (hfit : ¬ Fits hdr size a) (hn : (hdr a).next = a) :
    ∀ fuel prev, find_fit hdr size fuel a prev = none
  | 0, _ => rfl
  | fuel + 1, prev => by
    have hfit2 : ¬ ((hdr a).status = Status.FREE ∧ (hdr a).size ≥ size) := hfit
    simp only [find_fit, ha, hfit2, if_false, hn]
    exact find_fit_none_of_self hdr size a ha hfit hn fuel a

theorem find_last_none_of_next (hdr : Nat → block_meta) (a : Nat) (hn : (hdr a).next ≠ 0)
    (h : ∀ fuel, find_last hdr fuel (hdr a).next = none) :
    ∀ fuel, find_last hdr fuel a = none
  | 0 => rfl
  | fuel + 1 => by
    simp only [find_last, hn, ne_eq, not_false_eq_true, if_true]
    exact h fuel

theorem find_last_none_of_self (hdr : Nat → block_meta) (a : Nat) (ha : a ≠ 0)
    (hn : (hdr a).next = a) : ∀ fuel, find_last hdr fuel a = none
  | 0 => rfl
  | fuel + 1 => by
    have h0 : (hdr a).next ≠ 0 := by rw [hn]; exact ha
    simp only [find_last, h0, ne_eq, not_false_eq_true, if_true]
    rw [hn]
    exact find_last_none_of_self hdr a ha hn fuel

theorem free_find_alloc_none_of_next (hdr : Nat → block_meta) (t a : Nat) (ha : a ≠ 0)
    (hna : ¬ (a = t ∧ (hdr a).status = Status.ALLOC))
    (h : ∀ fuel, free_find_alloc hdr t fuel (hdr a).next = none) :
    ∀ fuel, free_find_alloc hdr t fuel a = none
  | 0 => rfl
  | fuel + 1 => by
    simp only [free_find_alloc, ha, hna, not_false_eq_true, if_true, if_false]
    exact h fuel

theorem free_find_alloc_none_of_self (hdr : Nat → block_meta) (t a : Nat) (ha : a ≠ 0)
    (hna : ¬ (a = t ∧ (hdr a).status = Status.ALLOC)) (hn : (hdr a).next = a) :
    ∀ fuel, free_find_alloc hdr t fuel a = none
  | 0 => rfl
  | fuel + 1 => by
    simp only [free_find_alloc, ha, hna, not_false_eq_true, if_true, if_false]
    rw [hn]
    exact free_find_alloc_none_of_self hdr t a ha hna hn fuel

/-- On `st_cyclic` the first-fit loop never ends for a request that no block fits. -/
theorem st_cyclic_find_fit (size : Nat) :
    ∀ fuel prev, find_fit st_cyclic.hdr size fuel st_cyclic.data_block prev = none := by
  have nf : ∀ a, (st_cyclic.hdr a).status ≠ Status.FREE → ¬ Fits st_cyclic.hdr size a :=
    fun a ha hf => ha hf.1
  have h4 := find_fit_none_of_self st_cyclic.hdr size 135336 (by decide)
    (nf _ (by decide)) (by decide)
  have h3 := find_fit_none_of_next st_cyclic.hdr size 135208 (by decide) (nf _ (by decide))
    (by rw [show (st_cyclic.hdr 135208).next = 135336 from by decide]; exact h4)
  have h2 := find_fit_none_of_next st_cyclic.hdr size 135168 (by decide) (nf _ (by decide))
    (by rw [show (st_cyclic.hdr 135168).next = 135208 from by decide]; exact h3)
  have h1 := find_fit_none_of_next st_cyclic.hdr size 4096 (by decide) (nf _ (by decide))
    (by rw [show (st_cyclic.hdr 4096).next = 135168 from by decide]; exact h2)
  rw [show st_cyclic.data_block = 4096 from by decide]
  exact h1

theorem st_cyclic_os_malloc (size : Nat) (h : 0 < size) :
    ∀ fuel, os_malloc fuel st_cyclic size = Outcome.hang := by
  intro fuel
  unfold os_malloc
  rw [if_neg (by omega), if_neg (by decide), st_cyclic_find_fit size fuel 0]

theorem st_cyclic_find_last (hdr : Nat → block_meta)
    (e1 : (hdr 4096).next = 135168) (e2 : (hdr 135168).next = 135208)
    (e3 : (hdr 135208).next = 135336) (e4 : (hdr 135336).next = 135336) :
    ∀ fuel, find_last hdr fuel 4096 = none := by
  have h4 := find_last_none_of_self hdr 135336 (by decide) e4
  have h3 := find_last_none_of_next hdr 135208 (by rw [e3]; decide) (by rw [e3]; exact h4)
  have h2 := find_last_none_of_next hdr 135168 (by rw [e2]; decide) (by rw [e2]; exact h3)
  exact find_last_none_of_next hdr 4096 (by rw [e1]; decide) (by rw [e1]; exact h2)

theorem st_cyclic_os_calloc_map : ∀ fuel, os_calloc fuel st_cyclic 1 5000 = Outcome.hang := by
  intro fuel
  have e : os_calloc fuel st_cyclic 1 5000 =
      (match find_last (set_next (set_size (set_status (mapped st_cyclic 5024) 4294967296
          Status.MAPPED) 4294967296 5000) 4294967296 0).hdr fuel 4096 with
        | none => Outcome.hang
        | some aux => Outcome.ret (add64 4294967296 META_SIZE)
            (set_next (set_next (set_size (set_status (mapped st_cyclic 5024) 4294967296
              Status.MAPPED) 4294967296 5000) 4294967296 0) aux 4294967296)) := rfl
  rw [e, st_cyclic_find_last _ (by decide) (by decide) (by decide) (by decide) fuel]

theorem st_cyclic_os_calloc_small : ∀ fuel, os_calloc fuel st_cyclic 1 100 = Outcome.hang := by
  intro fuel
  have e : os_calloc fuel st_cyclic 1 100 =
      (match os_malloc fuel st_cyclic 100 with
        | Outcome.ret ptr s =>
          if ptr ≠ 0 then Outcome.ret ptr (zero_fill s ptr 100) else Outcome.ret ptr s
        | Outcome.die s => Outcome.die s
        | Outcome.fault => Outcome.fault
        | Outcome.hang => Outcome.hang) := rfl
  rw [e, st_cyclic_os_malloc 100 (by decide) fuel]

theorem st_self_linked_os_free (p : Nat) (hp : p ≠ 0) (ht : sub64 p META_SIZE ≠ 4096)
    (h1 : sub64 p META_SIZE ≠ 135168) :
    ∀ fuel, os_free fuel st_self_linked p = Outcome.hang := by
  intro fuel
  have a4 := free_find_alloc_none_of_self st_self_linked.hdr (sub64 p META_SIZE) 135336
    (by decide) (fun h => absurd h.2 (by decide)) (by decide)
  have a3 := free_find_alloc_none_of_next st_self_linked.hdr (sub64 p META_SIZE) 135208
    (by decide) (fun h => absurd h.2 (by decide))
    (by rw [show (st_self_linked.hdr 135208).next = 135336 from by decide]; exact a4)
  have a2 := free_find_alloc_none_of_next st_self_linked.hdr (sub64 p META_SIZE) 135168
    (by decide) (fun h => h1 h.1.symm)
    (by rw [show (st_self_linked.hdr 135168).next = 135208 from by decide]; exact a3)
  have a1 := free_find_alloc_none_of_next st_self_linked.hdr (sub64 p META_SIZE) 4096
    (by decide) (fun h => ht h.1.symm)
    (by rw [show (st_self_linked.hdr 4096).next = 135168 from by decide]; exact a2)
  have hd : st_self_linked.data_block = 4096 := by decide
  unfold os_free
  rw [if_neg hp]
  have hh : head_is_mapped st_self_linked (sub64 p META_SIZE) = some false := by
    unfold head_is_mapped
    rw [hd, if_neg (fun h => ht h.symm)]
  rw [hh]
  simp only []
  rw [hd, a1 fuel]

/-- C7 as stated fails: six calls leave a registry that is not a null-terminated list.
`os_realloc` to 120 bytes splits the FREE block at `135208` by `120 - 16 = 104` bytes, more
than its 100: the remainder wraps, and its header is written at `135336`, the address of the
block after it, with that block as its `next`.  On this registry `os_free` of a pointer that
was never handed out (`5000`) and of the payload pointer of a FREE block (`135232`) walks the
list without end: whatever the fuel, the call neither leaves through `DIE` nor returns. -/
theorem os_free_hangs_on_cyclic_registry :
    ∃ s,
      run 20 init [Call.malloc 8, Call.malloc 16, Call.malloc 100, Call.malloc 8,
        Call.free 135232, Call.realloc 135192 120] = some s ∧
      registry 5 s =
        [(4096, 8, Status.ALLOC), (135168, 120, Status.ALLOC), (135208, 104, Status.FREE),
          (135336, 18446744073709551588, Status.FREE),
          (135336, 18446744073709551588, Status.FREE)] ∧
      (s.hdr 135336).next = 135336 ∧
      (∀ fuel, os_free fuel s 5000 = Outcome.hang ∧ (os_free fuel s 5000).aborted = false) ∧
      (∀ fuel, os_free fuel s (135208 + META_SIZE) = Outcome.hang ∧
        (os_free fuel s (135208 + META_SIZE)).aborted = false) :=
  ⟨st_self_linked, rfl, by decide, by decide,
    fun fuel => by
      rw [st_self_linked_os_free 5000 (by decide) (by decide) (by decide) fuel]
      exact ⟨rfl, rfl⟩,
    fun fuel => by
      rw [st_self_linked_os_free (135208 + META_SIZE) (by decide) (by decide) (by decide) fuel]
      exact ⟨rfl, rfl⟩⟩

/-- C5 as stated fails, at two reachable states.  After two blocks of 100000 bytes have been
released and merged by `os_malloc 16`, the registry holds a FREE block of 199984 bytes at
`135208`, and `os_malloc 131072` is served from it: the returned block is recorded ALLOCATED,
nothing is mapped, and the FREE block is split.  And on the registry left by eight calls, in
which no block is FREE and the header at `135336` is its own `next`, `os_malloc 131072` maps
nothing: the loop of lines 97-105 never reaches `NULL`, whatever the fuel. -/
theorem malloc_large_reuses_free_block :
    (∃ s s' p,
      run 20 init [Call.malloc 8, Call.malloc 100000, Call.malloc 100000, Call.free 135192,
        Call.free 235216, Call.malloc 16] = some s ∧
      registry 20 s =
        [(4096, 8, Status.ALLOC), (135168, 16, Status.ALLOC), (135208, 199984, Status.FREE)] ∧
      os_malloc 20 s 131072 = Outcome.ret p s' ∧ p = 135208 + META_SIZE ∧
      registry 20 s' =
        [(4096, 8, Status.ALLOC), (135168, 16, Status.ALLOC), (135208, 131072, Status.ALLOC),
          (266304, 68888, Status.FREE)] ∧
      s'.maps = [] ∧ s'.map_next = s.map_next) ∧
    (∃ s,
      run 20 init [Call.malloc 8, Call.malloc 16, Call.malloc 100, Call.malloc 8,
        Call.free 135232, Call.realloc 135192 120, Call.malloc 200, Call.malloc 100]
        = some s ∧
      s.data_block = 4096 ∧ s.count = 1 ∧
      registry 5 s =
        [(4096, 8, Status.ALLOC), (135168, 120, Status.ALLOC), (135208, 100, Status.ALLOC),
          (135336, 18446744073709551588, Status.ALLOC),
          (135336, 18446744073709551588, Status.ALLOC)] ∧
      (s.hdr 135336).next = 135336 ∧
      ∀ fuel, os_malloc fuel s 131072 = Outcome.hang) :=
  ⟨⟨_, _, _, rfl, by decide, rfl, by decide, by decide, by decide, by decide⟩,
    ⟨st_cyclic, rfl, by decide, by decide, by decide, by decide,
      st_cyclic_os_malloc 131072 (by decide)⟩⟩

end OsMem
